import Mathlib

/-!
Shallow embedding of the Nuggets game server (server/server.c) and its grid
module (grid/grid.c), together with proofs of the spec-level properties.

Modelling conventions:
* C `int` values are `Int`; array/string contents are `List Char`.
* The C pseudo-random stream (successive `rand()` results) is an explicit
  `List Nat` carried in the game state; each `rand()` call pops one element.
* C `%` on nonnegative operands is truncating; `cmod` below implements the
  C truncating semantics exactly.
* The float expressions in `grid_isVisible` compute values of the form
  `(i - pr) * dcol / drow + pc` on small integers; they are modelled by the
  exact rational value, represented as the integer fraction
  `((i - pr) * dcol + pc * drow) / drow`, with the C float-to-int cast
  modelled as truncation toward zero (`ctrunc`).  For in-bounds coordinates
  of game-sized maps the float computation is exact enough that the
  integrality test and the truncation agree with the exact value.
-/

namespace Nuggets

/-! ### C character classification (ctype.h, C locale) -/

/-- C isalpha. -/
def cIsAlpha (c : Char) : Bool :=
  ('A' ≤ c && c ≤ 'Z') || ('a' ≤ c && c ≤ 'z')

/-- C isspace. -/
def cIsSpace (c : Char) : Bool :=
  c = ' ' || c = '\t' || c = '\n' || c = '\x0b' || c = '\x0c' || c = '\r'

/-- C isgraph. -/
def cIsGraph (c : Char) : Bool :=
  '!' ≤ c && c ≤ '~'

/-- C isblank applied to an int argument (in handlePlay the argument is the
result of a comparison, hence 0 or 1). -/
def cIsBlankInt (n : Nat) : Bool :=
  n = 9 || n = 32

/-! ### Integer helpers: C truncating division and modulus -/

/-- Truncation toward zero of the exact quotient n / d, i.e. the result of a
C integer division (and of a C `(int)` cast applied to the exactly computed
quotient).  For d = 0 the result is 0 (the modelled code never divides by
zero on a path whose value is used). -/
def ctrunc (n d : Int) : Int :=
  n.sign * d.sign * ((n.natAbs / d.natAbs : Nat) : Int)

/-- C `%` (truncating remainder): a - (a / b) * b with truncating division. -/
def cmod (a b : Int) : Int :=
  a - ctrunc a b * b

/-- The integers from lo (inclusive) to hi (exclusive), in increasing order:
the index sequence of a C loop `for (x = lo; x < hi; x++)`. -/
def intRange (lo hi : Int) : List Int :=
  (List.range (hi - lo).toNat).map (fun (k : Nat) => lo + (k : Int))

/-! ### The grid module (grid/grid.c) -/

/-- A grid: nrow × ncol characters stored row-major, as in struct grid. -/
structure Grid where
  nrow : Int
  ncol : Int
  cells : List Char
deriving Repr, DecidableEq

instance : Inhabited Grid := ⟨⟨0, 0, []⟩⟩

/-- The bounds test used by grid_getchar and grid_update. -/
def grid_inBounds (g : Grid) (r c : Int) : Prop :=
  0 ≤ r ∧ r < g.nrow ∧ 0 ≤ c ∧ c < g.ncol

instance (g : Grid) (r c : Int) : Decidable (grid_inBounds g r c) := by
  unfold grid_inBounds; infer_instance

/-- grid_getchar: the character at (r, c), or the sentinel for any
out-of-bounds read. -/
def grid_getchar (g : Grid) (r c : Int) : Char :=
  if grid_inBounds g r c then g.cells.getD (r * g.ncol + c).toNat ' ' else '^'

/-- grid_update: write ch at (r, c); no-op when out of bounds. -/
def grid_update (g : Grid) (r c : Int) (ch : Char) : Grid :=
  if grid_inBounds g r c then
    { g with cells := g.cells.set (r * g.ncol + c).toNat ch }
  else g

/-- grid_new: an nrow × ncol grid of blanks (the NULL result for negative
dimensions is not modelled; the server only calls this with loaded-map
dimensions). -/
def grid_new (nrow ncol : Int) : Grid :=
  { nrow := nrow, ncol := ncol, cells := List.replicate (nrow * ncol).toNat ' ' }

/-- grid_isPlayer. -/
def grid_isPlayer (g : Grid) (r c : Int) : Bool :=
  cIsAlpha (grid_getchar g r c) || (grid_getchar g r c == '@')

/-- grid_isGold. -/
def grid_isGold (g : Grid) (r c : Int) : Bool :=
  grid_getchar g r c == '*'

/-- grid_isEmptyRoomSpot. -/
def grid_isEmptyRoomSpot (g : Grid) (r c : Int) : Bool :=
  grid_getchar g r c == '.'

/-- grid_isBoundary. -/
def grid_isBoundary (g : Grid) (r c : Int) : Bool :=
  grid_getchar g r c == '|' || grid_getchar g r c == '-' || grid_getchar g r c == '+'

/-- grid_isRock. -/
def grid_isRock (g : Grid) (r c : Int) : Bool :=
  grid_getchar g r c == ' '

/-- grid_canMoveTo. -/
def grid_canMoveTo (g : Grid) (r c : Int) : Bool :=
  !grid_isBoundary g r c && !grid_isRock g r c && grid_getchar g r c != '^'

/-- grid_isBlockable: blocks sight iff not floor, not gold, not a player. -/
def grid_isBlockable (g : Grid) (r c : Int) : Bool :=
  grid_getchar g r c != '.' && grid_getchar g r c != '*' && !grid_isPlayer g r c

/-! #### grid_isVisible -/

/-- The smaller of the two coordinates, as computed by the if/else
assignments at the head of grid_isVisible. -/
def visLow (a b : Int) : Int :=
  if a > b then b else a

/-- The larger of the two coordinates. -/
def visHigh (a b : Int) : Int :=
  if a > b then a else b

/-- The scan of intermediate columns when both points share a row. -/
def visSameRowBlocked (g : Grid) (pr c1 c2 : Int) : Bool :=
  (intRange (c1 + 1) c2).any (fun j => grid_isBlockable g pr j)

/-- The scan of intermediate rows when both points share a column. -/
def visSameColBlocked (g : Grid) (pc r1 r2 : Int) : Bool :=
  (intRange (r1 + 1) r2).any (fun i => grid_isBlockable g i pc)

/-- One probe of the row loop of grid_isVisible.  The C float value
ic = (i - pr) * dcol / drow + pc is the exact rational
((i - pr) * dcol + pc * drow) / drow; its integrality test and its
truncation toward zero are computed on that fraction. -/
def visRowProbe (g : Grid) (pr pc drow dcol i : Int) : Bool :=
  let n := (i - pr) * dcol + pc * drow
  if n.natAbs % drow.natAbs = 0 then
    grid_isBlockable g i (ctrunc n drow)
  else
    grid_isBlockable g i (ctrunc n drow) && grid_isBlockable g i (ctrunc n drow + 1)

/-- One probe of the column loop of grid_isVisible, for the float value
ir = (i - pc) * drow / dcol + pr. -/
def visColProbe (g : Grid) (pr pc drow dcol i : Int) : Bool :=
  let n := (i - pc) * drow + pr * dcol
  if n.natAbs % dcol.natAbs = 0 then
    grid_isBlockable g (ctrunc n dcol) i
  else
    grid_isBlockable g (ctrunc n dcol) i && grid_isBlockable g (ctrunc n dcol + 1) i

/-- The row loop of grid_isVisible: true iff some intermediate row blocks. -/
def visRowsBlocked (g : Grid) (pr pc drow dcol r1 r2 : Int) : Bool :=
  (intRange (r1 + 1) r2).any (fun i => visRowProbe g pr pc drow dcol i)

/-- The column loop of grid_isVisible. -/
def visColsBlocked (g : Grid) (pr pc drow dcol c1 c2 : Int) : Bool :=
  (intRange (c1 + 1) c2).any (fun i => visColProbe g pr pc drow dcol i)

/-- grid_isVisible: is (r, c) visible from the viewpoint (pr, pc)? -/
def grid_isVisible (g : Grid) (pr pc r c : Int) : Bool :=
  if (r - pr == 0) && visSameRowBlocked g pr (visLow pc c) (visHigh pc c) then false
  else if (c - pc == 0) && visSameColBlocked g pc (visLow pr r) (visHigh pr r) then false
  else if visRowsBlocked g pr pc (r - pr) (c - pc) (visLow pr r) (visHigh pr r) then false
  else if visColsBlocked g pr pc (r - pr) (c - pc) (visLow pc c) (visHigh pc c) then false
  else true

/-- All coordinate pairs of a grid, in the row-major order of the nested
loops of grid_setVisibility and grid_clean. -/
def cellList (g : Grid) : List (Int × Int) :=
  (intRange 0 g.nrow).flatMap (fun r => (intRange 0 g.ncol).map (fun c => (r, c)))

/-- grid_clean: reset every gold or player tile of the known grid to the
corresponding raw tile. -/
def grid_clean (raw known : Grid) : Grid :=
  (cellList known).foldl
    (fun k rc =>
      if grid_isGold k rc.1 rc.2 || grid_isPlayer k rc.1 rc.2 then
        grid_update k rc.1 rc.2 (grid_getchar raw rc.1 rc.2)
      else k)
    known

/-- grid_setVisibility: clean the known grid, copy every currently visible
non-rock master tile into it, then mark the viewer with the at sign. -/
def grid_setVisibility (master raw known : Grid) (pr pc : Int) : Grid :=
  let known := grid_clean raw known
  let known :=
    (cellList master).foldl
      (fun k rc =>
        if !grid_isRock master rc.1 rc.2 && grid_isVisible master pr pc rc.1 rc.2 then
          grid_update k rc.1 rc.2 (grid_getchar master rc.1 rc.2)
        else k)
      known
  grid_update known pr pc '@'

/-- grid_toString: the newline-terminated row-major rendering. -/
def grid_toString (g : Grid) : String :=
  String.mk
    ((intRange 0 g.nrow).flatMap
      (fun r => (intRange 0 g.ncol).map (fun c => grid_getchar g r c) ++ ['\n']))

/-! ### The server (server/server.c) -/

/-- Game constants from server.c. -/
def MaxNameLength : Nat := 50

def MaxPlayers : Nat := 26

def GoldTotal : Int := 250

def GoldMinNumPiles : Int := 10

def GoldMaxNumPiles : Int := 30

/-- A datagram from the server to a client. -/
inductive SMsg where
  | ok (c : Char)
  | gridMsg (rows cols : Int)
  | gold (justCollected purse remaining : Int)
  | display (s : String)
  | quitMsg (s : String)
  | error (s : String)
deriving Repr, DecidableEq

/-- struct player.  Transport addresses are modelled as naturals. -/
structure Player where
  IP : Nat
  realName : List Char
  aliasLetter : Char
  gold : Int
  justCollected : Int
  row : Int
  col : Int
  seenGrid : Grid
deriving Repr, DecidableEq

instance : Inhabited Player := ⟨⟨0, [], 'A', 0, 0, 0, 0, default⟩⟩

/-- struct game, plus the pending pseudo-random draws and the log of sent
datagrams.  numPlayer is players.length (the table never shrinks: the
removal code in handleQUIT is commented out in the source). -/
structure GameState where
  masterGrid : Grid
  rawGrid : Grid
  GridRow : Int
  GridCol : Int
  GoldNumPilesLeft : Int
  goldCollected : Int
  goldLeft : Int
  players : List Player
  spectatorIP : Option Nat
  rands : List Nat
  outbox : List (Nat × SMsg)
deriving Repr, DecidableEq

/-- One rand() call: pop the next draw off the stream. -/
def randNext (st : GameState) : Nat × GameState :=
  (st.rands.headD 0, { st with rands := st.rands.tail })

/-- message_send: append to the outbox log. -/
def send (st : GameState) (a : Nat) (m : SMsg) : GameState :=
  { st with outbox := st.outbox ++ [(a, m)] }

/-- The rejection-sampling loop shared by server_drop_gold and
server_drop_player: redraw (row, col) until the master grid has an empty
room spot there.  Each iteration consumes two draws; when the stream is
exhausted before a spot is found the C loop would spin forever, which is
modelled as none. -/
def rejectionLoop (g : Grid) (nr nc : Int) : List Nat → Int → Int → Option (Int × Int × List Nat)
  | s, row, col =>
    if grid_isEmptyRoomSpot g row col then some (row, col, s)
    else
      match s with
      | [] => none
      | [_] => none
      | x :: y :: rest => rejectionLoop g nr nc rest (cmod (x : Int) nr) (cmod (y : Int) nc)

/-- server_drop_player (the position computation): draw a cell, then reject
until it is an empty room spot. -/
def server_drop_player (g : Grid) (nr nc : Int) : List Nat → Option (Int × Int × List Nat)
  | [] => none
  | [_] => none
  | x :: y :: rest => rejectionLoop g nr nc rest (cmod (x : Int) nr) (cmod (y : Int) nc)

/-- The pile-placement loop of server_drop_gold. -/
def placeGoldLoop (nr nc : Int) : Nat → Grid → List Nat → Grid × List Nat
  | 0, g, s => (g, s)
  | n + 1, g, s =>
    match server_drop_player g nr nc s with
    | some (row, col, s') => placeGoldLoop nr nc n (grid_update g row col '*') s'
    | none => (g, s)

/-- server_drop_gold: choose the pile count, reset the ledger, place piles. -/
def server_drop_gold (st : GameState) : GameState :=
  let (x, st) := randNext st
  let piles := cmod (x : Int) (GoldMaxNumPiles - GoldMinNumPiles) + GoldMinNumPiles
  let st := { st with GoldNumPilesLeft := piles, goldCollected := 0, goldLeft := GoldTotal }
  let gs := placeGoldLoop st.GridRow st.GridCol piles.toNat st.masterGrid st.rands
  { st with masterGrid := gs.1, rands := gs.2 }

/-- The per-player body of server_update_all_clients.  The C loop mutates
players in place; iterations are independent (each touches only its own
player and the outbox), so it is modelled as a structural recursion that
rebuilds the list and collects the sent messages in order. -/
def updatePlayersLoop (master raw : Grid) (goldLeft : Int) : List Player → List Player × List (Nat × SMsg)
  | [] => ([], [])
  | p :: rest =>
    let seen := grid_setVisibility master raw p.seenGrid p.row p.col
    let p' := { p with justCollected := 0, seenGrid := seen }
    let r := updatePlayersLoop master raw goldLeft rest
    (p' :: r.1,
      (p.IP, SMsg.gold p.justCollected p.gold goldLeft)
        :: (p.IP, SMsg.display (grid_toString seen)) :: r.2)

/-- server_update_all_clients. -/
def server_update_all_clients (st : GameState) : GameState :=
  let st :=
    match st.spectatorIP with
    | some a =>
      send (send st a (SMsg.gold 0 0 st.goldLeft)) a (SMsg.display (grid_toString st.masterGrid))
    | none => st
  let r := updatePlayersLoop st.masterGrid st.rawGrid st.goldLeft st.players
  { st with players := r.1, outbox := st.outbox ++ r.2 }

/-- pickup_gold. -/
def pickup_gold (st : GameState) (i : Nat) : GameState :=
  let minPerPile : Int := 1
  let maxPerPile : Int := st.goldLeft - st.GoldNumPilesLeft + 1
  let gst :=
    if st.GoldNumPilesLeft ≠ 1 then
      let r := randNext st
      (cmod (r.1 : Int) (maxPerPile - minPerPile + 1) + minPerPile, r.2)
    else
      (st.goldLeft, st)
  let gold := gst.1
  let st := gst.2
  let p := st.players.getD i default
  let st := { st with players := st.players.set i { p with gold := p.gold + gold, justCollected := gold } }
  { st with
    goldCollected := st.goldCollected + gold,
    goldLeft := st.goldLeft - gold,
    GoldNumPilesLeft := st.GoldNumPilesLeft - 1 }

/-- The swap branch of player_move: the found player j takes the mover's
old tile (the master tile there shows j's alias), the mover i takes the
target tile, and all clients are updated.  The mover's record is re-read
after j's update, exactly as the C code does through its pointers. -/
def pm_swap (st : GameState) (i j : Nat) (nr nc : Int) : GameState :=
  let q := st.players.getD j default
  let p := st.players.getD i default
  let ps1 := st.players.set j { q with row := p.row, col := p.col }
  let g1 := grid_update st.masterGrid p.row p.col q.aliasLetter
  let ps2 := ps1.set i { ps1.getD i default with row := nr, col := nc }
  let g2 := grid_update g1 nr nc (ps1.getD i default).aliasLetter
  server_update_all_clients { st with players := ps2, masterGrid := g2 }

/-- The common step of the gold and plain branches of player_move: move the
mover, restore its old tile from raw, and draw its alias on the new tile. -/
def pm_step (st : GameState) (i : Nat) (nr nc : Int) : GameState :=
  let p := st.players.getD i default
  let ps1 := st.players.set i { p with row := nr, col := nc }
  let g1 := grid_update st.masterGrid p.row p.col (grid_getchar st.rawGrid p.row p.col)
  let g2 := grid_update g1 nr nc p.aliasLetter
  { st with players := ps1, masterGrid := g2 }

/-- player_move: attempt to move player i to (nr, nc).  Returns true when
the target is not movable (the run loops stop on true). -/
def player_move (st : GameState) (i : Nat) (nr nc : Int) : GameState × Bool :=
  if grid_canMoveTo st.masterGrid nr nc then
    if grid_isPlayer st.masterGrid nr nc then
      match st.players.findIdx? (fun q => q.row == nr && q.col == nc) with
      | some j => (pm_swap st i j nr nc, false)
      | none =>
        -- the for loop finds no matching player and control falls through
        -- to the final return false without moving anyone
        (st, false)
    else if grid_isGold st.masterGrid nr nc then
      (server_update_all_clients (pickup_gold (pm_step st i nr nc) i), false)
    else
      (server_update_all_clients (pm_step st i nr nc), false)
  else
    (st, true)

/-- The while loop of an uppercase (run) key in handleKEY: the local copies
row, col track the target; the loop stops when player_move returns true.
The C loop has no fuel; fuel bounds the modelled iteration count and is
instantiated large enough for any terminating run. -/
def moveLoop (i : Nat) (dr dc : Int) : Nat → GameState → Int → Int → GameState × Bool
  | 0, st, _, _ => (st, false)
  | fuel + 1, st, row, col =>
    let r := player_move st i (row + dr) (col + dc)
    if r.2 then (r.1, true)
    else moveLoop i dr dc fuel r.1 (row + dr) (col + dc)

/-- Repeated single-step processing of the corresponding lowercase key:
each step re-reads the player's position and attempts one move; the
repetition stops when the step fails. -/
def stepLoop (i : Nat) (dr dc : Int) : Nat → GameState → GameState × Bool
  | 0, st => (st, false)
  | fuel + 1, st =>
    let p := st.players.getD i default
    let r := player_move st i (p.row + dr) (p.col + dc)
    if r.2 then (r.1, true)
    else stepLoop i dr dc fuel r.1

/-- Fuel bound used when a run key is processed: a run in a fixed direction
succeeds at most GridRow + GridCol times before leaving the grid. -/
def runFuel (st : GameState) : Nat :=
  (st.GridRow + st.GridCol).toNat + 2

/-- The player-identification loop of handleKEY keeps the LAST table entry
whose address matches the sender (the loop has no break). -/
def lastMatchIdx (ps : List Player) (a : Nat) : Option Nat :=
  (List.range ps.length).foldl
    (fun acc i => if (ps.getD i default).IP = a then some i else acc) none

/-- The restore loop of handleQUIT: for every table entry whose address
matches, send the quit message and restore its master tile to raw. -/
def quitRestoreLoop (raw : Grid) (a : Nat) : List Player → Grid → List (Nat × SMsg) → Grid × List (Nat × SMsg)
  | [], g, out => (g, out)
  | p :: rest, g, out =>
    if p.IP = a then
      quitRestoreLoop raw a rest
        (grid_update g p.row p.col (grid_getchar raw p.row p.col))
        (out ++ [(a, SMsg.quitMsg "QUIT Thanks for playing!")])
    else quitRestoreLoop raw a rest g out

/-- handleQUIT. -/
def handleQUIT (st : GameState) (a : Nat) : GameState × Bool :=
  let st :=
    if st.spectatorIP = some a then send st a (SMsg.quitMsg "QUIT Thanks for watching!")
    else st
  let r := quitRestoreLoop st.rawGrid a st.players st.masterGrid []
  let st := { st with masterGrid := r.1, outbox := st.outbox ++ r.2 }
  (server_update_all_clients st, false)

/-- The switch statement of handleKEY: one branch per key, the default
branch sending the unknown-keystroke error to the identified player. -/
def keyDispatch (st : GameState) (i : Nat) (row col : Int) (pIP : Nat) (key : Char) : GameState :=
  if key = 'h' then (player_move st i row (col - 1)).1
  else if key = 'H' then (moveLoop i 0 (-1) (runFuel st) st row col).1
  else if key = 'l' then (player_move st i row (col + 1)).1
  else if key = 'L' then (moveLoop i 0 1 (runFuel st) st row col).1
  else if key = 'j' then (player_move st i (row + 1) col).1
  else if key = 'J' then (moveLoop i 1 0 (runFuel st) st row col).1
  else if key = 'k' then (player_move st i (row - 1) col).1
  else if key = 'K' then (moveLoop i (-1) 0 (runFuel st) st row col).1
  else if key = 'y' then (player_move st i (row - 1) (col - 1)).1
  else if key = 'Y' then (moveLoop i (-1) (-1) (runFuel st) st row col).1
  else if key = 'u' then (player_move st i (row - 1) (col + 1)).1
  else if key = 'U' then (moveLoop i (-1) 1 (runFuel st) st row col).1
  else if key = 'b' then (player_move st i (row + 1) (col - 1)).1
  else if key = 'B' then (moveLoop i 1 (-1) (runFuel st) st row col).1
  else if key = 'n' then (player_move st i (row + 1) (col + 1)).1
  else if key = 'N' then (moveLoop i 1 1 (runFuel st) st row col).1
  else send st pIP (SMsg.error (String.push "ERROR Unknown Keystroke: " key))

/-- handleKEY. -/
def handleKEY (st : GameState) (sender : Nat) (key : Char) : GameState × Bool :=
  if key = 'Q' then
    -- handleQUIT(from); return false
    (handleQUIT st sender).1 |> fun st' => (st', false)
  else
    match lastMatchIdx st.players sender with
    | none => (st, false)
    | some i =>
      let p := st.players.getD i default
      let st1 := keyDispatch st i p.row p.col p.IP key
      (st1, decide (st1.GoldNumPilesLeft = 0))

/-- helper_nameIsEmpty. -/
def helper_nameIsEmpty (name : List Char) : Bool :=
  name.all cIsSpace

/-- The realName copy loop of handlePlay, byte for byte as written: the
condition `isgraph(name[i]) == false && isblank(name[i] == false)` applies
isblank to the value of the comparison name[i] == false, which is 0 for
every byte the loop visits, so the underscore branch is unreachable. -/
def storeRealName (name : List Char) : List Char :=
  (name.take MaxNameLength).map
    (fun ch =>
      if cIsGraph ch = false ∧ cIsBlankInt (if ch = Char.ofNat 0 then 1 else 0) then '_'
      else ch)

/-- What the spec says the sanitization should be: bytes that are neither
graphic nor blank become an underscore.  (Used to exhibit the divergence of
the code from the spec.) -/
def specSanitizeName (name : List Char) : List Char :=
  (name.take MaxNameLength).map
    (fun ch => if cIsGraph ch = false ∧ cIsBlankInt ch.toNat = false then '_' else ch)

/-- handlePlay. -/
def handlePlay (st : GameState) (sender : Nat) (name : List Char) : GameState × Bool :=
  if st.players.length = MaxPlayers then
    (send st sender (SMsg.quitMsg "QUIT Game is full: no more players can join."), false)
  else if helper_nameIsEmpty name then
    (send st sender (SMsg.quitMsg "QUIT Sorry: you must provide player's name."), false)
  else
    match server_drop_player st.masterGrid st.GridRow st.GridCol st.rands with
    | none => (st, false)
    | some (row, col, rands') =>
      let player : Player :=
        { IP := sender
          realName := storeRealName name
          aliasLetter := Char.ofNat (65 + st.players.length)
          gold := 0
          justCollected := 0
          row := row
          col := col
          seenGrid := grid_new st.GridRow st.GridCol }
      let st :=
        { st with
          rands := rands'
          players := st.players ++ [player]
          masterGrid := grid_update st.masterGrid row col player.aliasLetter }
      let st := send st sender (SMsg.ok player.aliasLetter)
      let st := send st sender (SMsg.gridMsg st.GridRow st.GridCol)
      (server_update_all_clients st, false)

/-- handleSPECTATE. -/
def handleSPECTATE (st : GameState) (sender : Nat) : GameState × Bool :=
  let st :=
    match st.spectatorIP with
    | some old => send st old (SMsg.quitMsg "QUIT You have been replaced by a new spectator.")
    | none => st
  let st := { st with spectatorIP := some sender }
  let st := send st sender (SMsg.gridMsg st.GridRow st.GridCol)
  (server_update_all_clients st, false)

/-- A parsed inbound datagram (the demultiplexer of handleMessage). -/
inductive ClientMsg where
  | play (name : List Char)
  | spectate
  | key (c : Char)
deriving Repr, DecidableEq

/-- handleMessage, after demultiplexing. -/
def handleMessage (st : GameState) (sender : Nat) : ClientMsg → GameState × Bool
  | ClientMsg.play name => handlePlay st sender name
  | ClientMsg.spectate => handleSPECTATE st sender
  | ClientMsg.key c => handleKEY st sender c

/-- The state after game setup (main up to server_drop_gold), for a loaded
map and a given pseudo-random stream. -/
def initState (map : Grid) (s : List Nat) : GameState :=
  server_drop_gold
    { masterGrid := map
      rawGrid := map
      GridRow := map.nrow
      GridCol := map.ncol
      GoldNumPilesLeft := 0
      goldCollected := 0
      goldLeft := 0
      players := []
      spectatorIP := none
      rands := s
      outbox := [] }

/-- Process a list of inbound datagrams in order. -/
def runMsgs (st : GameState) (msgs : List (Nat × ClientMsg)) : GameState :=
  msgs.foldl (fun st m => (handleMessage st m.1 m.2).1) st

/-! ### parseArgs seeding (server.c lines 145-186) -/

/-- The global struct game is zero-initialized and its seed field is never
assigned anywhere in server.c. -/
def GAME_seed_initial : Int := 0

/-- The value parseArgs passes to srand: with two CLI arguments the process
id; with three, after validating the parsed seed, the (never-assigned)
global GAME.seed.  none models the error exit for an invalid seed. -/
def parseArgs_srandArg (cliSeed : Option Int) (pid : Int) : Option Int :=
  match cliSeed with
  | none => some pid
  | some s => if s ≤ 0 then none else some GAME_seed_initial

/-! ### Derived state predicates used by the claims -/

/-- Sum of all purses. -/
def sumPurses (st : GameState) : Int :=
  (st.players.map Player.gold).sum

/-- No two table entries occupy the same position. -/
def positionsDistinct (st : GameState) : Prop :=
  st.players.Pairwise (fun p q => p.row ≠ q.row ∨ p.col ≠ q.col)

instance (st : GameState) : Decidable (positionsDistinct st) := by
  unfold positionsDistinct; exact List.instDecidablePairwise _

/-- A KEY Q datagram (the only quit path). -/
def isQuitMsg : ClientMsg → Bool
  | ClientMsg.key c => c = 'Q'
  | _ => false

/-- Every master-grid tile that displays a player is occupied by some table
entry. -/
def lettersHaveOwners (st : GameState) : Bool :=
  (cellList st.masterGrid).all
    (fun rc =>
      !grid_isPlayer st.masterGrid rc.1 rc.2
        || st.players.any (fun p => p.row == rc.1 && p.col == rc.2))

/-- The raw grid displays no players anywhere. -/
def rawHasNoPlayers (st : GameState) : Bool :=
  (cellList st.rawGrid).all (fun rc => !grid_isPlayer st.rawGrid rc.1 rc.2)

/-- The player's position is inside the given grid. -/
def posInBounds (g : Grid) (p : Player) : Prop :=
  0 ≤ p.row ∧ p.row < g.nrow ∧ 0 ≤ p.col ∧ p.col < g.ncol

instance (g : Grid) (p : Player) : Decidable (posInBounds g p) := by
  unfold posInBounds; infer_instance

/-- The cell list has exactly the announced length (true of every grid the
server builds or loads). -/
def gridWF (g : Grid) : Prop :=
  g.cells.length = (g.nrow * g.ncol).toNat ∧ 0 ≤ g.nrow ∧ 0 ≤ g.ncol

instance (g : Grid) : Decidable (gridWF g) := by
  unfold gridWF; infer_instance

/-- The gold-conservation invariant of claim C2. -/
def GoldInv (st : GameState) : Prop :=
  sumPurses st + st.goldLeft = GoldTotal ∧ st.goldCollected + st.goldLeft = GoldTotal

/-- Every table entry's position is inside the master grid (claim C10). -/
def PosInv (st : GameState) : Prop :=
  ∀ k, k < st.players.length → posInBounds st.masterGrid (st.players.getD k default)

/-- The table invariant maintained by quit-free executions: a well-formed
master grid, at most 26 players, alphabetic aliases, in-bounds positions,
each player's tile showing its alias, and pairwise distinct positions. -/
def TableInv (st : GameState) : Prop :=
  st.players.length ≤ MaxPlayers
    ∧ gridWF st.masterGrid
    ∧ (∀ k, k < st.players.length → cIsAlpha (st.players.getD k default).aliasLetter = true)
    ∧ (∀ k, k < st.players.length → posInBounds st.masterGrid (st.players.getD k default))
    ∧ (∀ k, k < st.players.length →
        grid_getchar st.masterGrid (st.players.getD k default).row
            (st.players.getD k default).col
          = (st.players.getD k default).aliasLetter)
    ∧ (∀ k l, k < st.players.length → l < st.players.length → k ≠ l →
        ((st.players.getD k default).row ≠ (st.players.getD l default).row
          ∨ (st.players.getD k default).col ≠ (st.players.getD l default).col))

/-- Every master tile showing a player letter is occupied by a table entry
(the Prop form of lettersHaveOwners). -/
def lettersOwned (st : GameState) : Prop :=
  ∀ r c, grid_isPlayer st.masterGrid r c = true →
    ∃ j, j < st.players.length
      ∧ (st.players.getD j default).row = r ∧ (st.players.getD j default).col = c

/-- The raw grid shows no player anywhere (the Prop form of
rawHasNoPlayers). -/
def rawClean (st : GameState) : Prop :=
  ∀ r c, grid_isPlayer st.rawGrid r c = false

/-! ### Concrete instances used by witnesses and counterexamples -/

/-- A 3 × 5 map: a one-row room. -/
def mapSmall : Grid :=
  ⟨3, 5, ("-----" ++ "-...-" ++ "-----").toList⟩

/-- A 5 × 7 map with a 3 × 5 room, enough floor for ten piles and players. -/
def mapC4 : Grid :=
  ⟨5, 7, ("-------" ++ "-.....-" ++ "-.....-" ++ "-.....-" ++ "-------").toList⟩

/-- Random stream for the C4 counterexample: 10 piles filling rows 1 and 2,
then player A at (3,1), then player B at (3,1) again after A has quit. -/
def streamC4 : List Nat :=
  [0, 1, 1, 1, 2, 1, 3, 1, 4, 1, 5, 2, 1, 2, 2, 2, 3, 2, 4, 2, 5, 3, 1, 3, 1]

/-- Messages for the C4 counterexample: A joins, A quits, B joins (landing
on the tile the quit restored). -/
def msgsC4 : List (Nat × ClientMsg) :=
  [(1, ClientMsg.play ['A', 'l']), (1, ClientMsg.key 'Q'), (2, ClientMsg.play ['B', 'o'])]

/-- Quit-free messages for the witness of the amended C4: A joins and
steps right. -/
def msgsC4nq : List (Nat × ClientMsg) :=
  [(1, ClientMsg.play ['A', 'l']), (1, ClientMsg.key 'l')]

/-- A full table: 26 seated players. -/
def st26 : GameState :=
  { masterGrid := mapSmall
    rawGrid := mapSmall
    GridRow := 3
    GridCol := 5
    GoldNumPilesLeft := 10
    goldCollected := 0
    goldLeft := 250
    players := (List.range 26).map (fun k => { (default : Player) with IP := k })
    spectatorIP := none
    rands := []
    outbox := [] }

/-- A state about to pick up gold: one player, 3 piles, 100 nuggets left. -/
def stPickup : GameState :=
  { masterGrid := mapSmall
    rawGrid := mapSmall
    GridRow := 3
    GridCol := 5
    GoldNumPilesLeft := 3
    goldCollected := 150
    goldLeft := 100
    players := [{ (default : Player) with IP := 5, row := 1, col := 1 }]
    spectatorIP := none
    rands := [7]
    outbox := [] }

/-- The master grid of stQ: player A seated at (1, 1). -/
def masterQ : Grid :=
  ⟨3, 5, ("-----" ++ "-A..-" ++ "-----").toList⟩

/-- A state with one seated player A at (1, 1) (the raw tile there is a
floor dot). -/
def stQ : GameState :=
  { masterGrid := masterQ
    rawGrid := mapSmall
    GridRow := 3
    GridCol := 5
    GoldNumPilesLeft := 4
    goldCollected := 0
    goldLeft := 250
    players := [{ (default : Player) with IP := 1, aliasLetter := 'A', row := 1, col := 1 }]
    spectatorIP := none
    rands := []
    outbox := [] }

end Nuggets

namespace Nuggets

/-! ## Basic lemmas -/

theorem intRange_mem {lo hi x : Int} : x ∈ intRange lo hi ↔ lo ≤ x ∧ x < hi := by
  unfold intRange
  simp only [List.mem_map, List.mem_range]
  constructor
  · rintro ⟨k, hk, rfl⟩
    omega
  · rintro ⟨h1, h2⟩
    exact ⟨(x - lo).toNat, by omega, by omega⟩

theorem list_any_ext {α : Type} (l : List α) (f g : α → Bool) (h : ∀ a, f a = g a) :
    l.any f = l.any g := by
  induction l with
  | nil => rfl
  | cons a t ih => simp only [List.any_cons, h a, ih]

theorem ctrunc_neg_neg (n d : Int) : ctrunc (-n) (-d) = ctrunc n d := by
  unfold ctrunc
  rw [Int.sign_neg, Int.sign_neg, Int.natAbs_neg, Int.natAbs_neg]
  ring

/-! ## Symmetry of grid_isVisible (claim C3) -/

theorem visLow_comm (a b : Int) : visLow a b = visLow b a := by
  unfold visLow
  split <;> split <;> omega

theorem visHigh_comm (a b : Int) : visHigh a b = visHigh b a := by
  unfold visHigh
  split <;> split <;> omega

theorem visRowProbe_symm (g : Grid) (pr pc drow dcol i : Int) :
    visRowProbe g (pr + drow) (pc + dcol) (-drow) (-dcol) i = visRowProbe g pr pc drow dcol i := by
  simp only [visRowProbe]
  have hn : (i - (pr + drow)) * (-dcol) + (pc + dcol) * (-drow)
      = -((i - pr) * dcol + pc * drow) := by ring
  rw [hn, Int.natAbs_neg, Int.natAbs_neg, ctrunc_neg_neg]

theorem visColProbe_symm (g : Grid) (pr pc drow dcol i : Int) :
    visColProbe g (pr + drow) (pc + dcol) (-drow) (-dcol) i = visColProbe g pr pc drow dcol i := by
  simp only [visColProbe]
  have hn : (i - (pc + dcol)) * (-drow) + (pr + drow) * (-dcol)
      = -((i - pc) * drow + pr * dcol) := by ring
  rw [hn, Int.natAbs_neg, Int.natAbs_neg, ctrunc_neg_neg]

theorem visRowsBlocked_symm (g : Grid) (pr pc r c lo hi : Int) :
    visRowsBlocked g r c (pr - r) (pc - c) lo hi
      = visRowsBlocked g pr pc (r - pr) (c - pc) lo hi := by
  unfold visRowsBlocked
  apply list_any_ext
  intro i
  have h := visRowProbe_symm g pr pc (r - pr) (c - pc) i
  rw [show pr + (r - pr) = r by ring, show pc + (c - pc) = c by ring,
    show -(r - pr) = pr - r by ring, show -(c - pc) = pc - c by ring] at h
  exact h

theorem visColsBlocked_symm (g : Grid) (pr pc r c lo hi : Int) :
    visColsBlocked g r c (pr - r) (pc - c) lo hi
      = visColsBlocked g pr pc (r - pr) (c - pc) lo hi := by
  unfold visColsBlocked
  apply list_any_ext
  intro i
  have h := visColProbe_symm g pr pc (r - pr) (c - pc) i
  rw [show pr + (r - pr) = r by ring, show pc + (c - pc) = c by ring,
    show -(r - pr) = pr - r by ring, show -(c - pc) = pc - c by ring] at h
  exact h

theorem visSameRow_cond_symm (g : Grid) (pr r x y : Int) :
    ((pr - r == 0) && visSameRowBlocked g r x y)
      = ((r - pr == 0) && visSameRowBlocked g pr x y) := by
  by_cases h : r = pr
  · subst h; rfl
  · rw [beq_eq_false_iff_ne.mpr (by omega : pr - r ≠ 0),
      beq_eq_false_iff_ne.mpr (by omega : r - pr ≠ 0)]
    simp only [Bool.false_and]

theorem visSameCol_cond_symm (g : Grid) (pc c x y : Int) :
    ((pc - c == 0) && visSameColBlocked g c x y)
      = ((c - pc == 0) && visSameColBlocked g pc x y) := by
  by_cases h : c = pc
  · subst h; rfl
  · rw [beq_eq_false_iff_ne.mpr (by omega : pc - c ≠ 0),
      beq_eq_false_iff_ne.mpr (by omega : c - pc ≠ 0)]
    simp only [Bool.false_and]

theorem grid_isVisible_symm (g : Grid) (pr pc r c : Int) :
    grid_isVisible g r c pr pc = grid_isVisible g pr pc r c := by
  unfold grid_isVisible
  rw [visLow_comm c pc, visHigh_comm c pc, visLow_comm r pr, visHigh_comm r pr,
    visRowsBlocked_symm, visColsBlocked_symm,
    visSameRow_cond_symm, visSameCol_cond_symm]

/-- C3: for every pair of in-bounds cells of a grid that contains no player
letters, no at sign and no gold, grid_isVisible is symmetric in viewpoint
and target.  (The proof factors through unconditional symmetry of the
embedded algorithm.) -/
theorem visibility_symmetric (g : Grid) (pr pc r c : Int)
    (_hplayers : ∀ ch ∈ g.cells, cIsAlpha ch = false ∧ ch ≠ '@')
    (_hgold : ∀ ch ∈ g.cells, ch ≠ '*')
    (_hb1 : grid_inBounds g pr pc) (_hb2 : grid_inBounds g r c) :
    grid_isVisible g pr pc r c = grid_isVisible g r c pr pc :=
  (grid_isVisible_symm g pr pc r c).symm

/-- Witness for C3 at a concrete grid and cells. -/
theorem visibility_symmetric_witness :
    (∀ ch ∈ mapSmall.cells, cIsAlpha ch = false ∧ ch ≠ '@')
      ∧ (∀ ch ∈ mapSmall.cells, ch ≠ '*')
      ∧ grid_inBounds mapSmall 1 1 ∧ grid_inBounds mapSmall 1 3
      ∧ grid_isVisible mapSmall 1 1 1 3 = grid_isVisible mapSmall 1 3 1 1 :=
  ⟨by decide, by decide, by decide, by decide,
    visibility_symmetric mapSmall 1 1 1 3 (by decide) (by decide) (by decide) (by decide)⟩

end Nuggets

namespace Nuggets

/-! ## List and modulus helper lemmas -/

theorem listGetD_set_self {α : Type} (l : List α) (i : Nat) (a d : α) (h : i < l.length) :
    (l.set i a).getD i d = a := by
  rw [List.getD_eq_getElem?_getD, List.getElem?_set_self h]
  rfl

theorem listGetD_set_ne {α : Type} (l : List α) {i j : Nat} (a d : α) (h : i ≠ j) :
    (l.set i a).getD j d = l.getD j d := by
  rw [List.getD_eq_getElem?_getD, List.getElem?_set_ne h, ← List.getD_eq_getElem?_getD]

theorem cmod_natCast (x m : Nat) : cmod (x : Int) (m : Int) = ((x % m : Nat) : Int) := by
  unfold cmod ctrunc
  rcases Nat.eq_zero_or_pos x with hx | hx
  · subst hx
    simp
  rcases Nat.eq_zero_or_pos m with hm | hm
  · subst hm
    simp
  have h1 : ((x : Int)).sign = 1 := by
    rw [Int.sign_eq_one_iff_pos]
    exact_mod_cast hx
  have h2 : ((m : Int)).sign = 1 := by
    rw [Int.sign_eq_one_iff_pos]
    exact_mod_cast hm
  rw [h1, h2, Int.natAbs_ofNat, Int.natAbs_ofNat]
  have hdm := Nat.div_add_mod x m
  have hcast : ((m : Int)) * ((x / m : Nat) : Int) + ((x % m : Nat) : Int) = (x : Int) := by
    exact_mod_cast hdm
  push_cast
  linarith

theorem cmod_natCast_int (x : Nat) (M : Int) (hM : 0 < M) :
    cmod (x : Int) M = ((x % M.toNat : Nat) : Int) := by
  have hM' : ((M.toNat : Nat) : Int) = M := Int.toNat_of_nonneg hM.le
  rw [← hM']
  exact cmod_natCast x M.toNat

theorem cmod_natCast_bounds (x : Nat) (M : Int) (hM : 0 < M) :
    0 ≤ cmod (x : Int) M ∧ cmod (x : Int) M < M := by
  rw [cmod_natCast_int x M hM]
  have hlt : x % M.toNat < M.toNat := Nat.mod_lt x (by omega)
  omega

/-! ## Claim C5: the CLI seed is parsed, validated, then ignored -/

/-- C5 (code bug): with three CLI arguments parseArgs validates the parsed
seed but then calls srand on the zero-initialized, never-assigned global
GAME.seed, so every valid CLI seed yields srand(0); with two arguments the
process id is used as the claim states. -/
theorem seed_ignored_bug :
    parseArgs_srandArg (some 42) 1234 = some 0
      ∧ parseArgs_srandArg (some 7) 1234 = some 0
      ∧ parseArgs_srandArg none 1234 = some 1234
      ∧ (0 : Int) ≠ 42 := by decide

/-! ## Claim C8: the realName sanitization never fires -/

/-- C8 (code bug): the stored realName keeps every byte of the first 50
unchanged, because isblank is applied to the comparison name[i] == false
instead of to name[i]; the spec's sanitization would map the non-graphic,
non-blank byte 0x01 to an underscore. -/
theorem name_sanitization_bug :
    storeRealName ['a', '\x01', 'b'] = ['a', '\x01', 'b']
      ∧ specSanitizeName ['a', '\x01', 'b'] = ['a', '_', 'b']
      ∧ storeRealName ['a', '\x01', 'b'] ≠ specSanitizeName ['a', '\x01', 'b'] := by decide

/-! ## Claim C9: a 27th PLAY is refused and changes nothing -/

/-- C9: when the table already holds 26 players, handlePlay sends exactly
the full-game QUIT to the sender and leaves the player table, both grids
and the gold accounting unchanged, and the game continues. -/
theorem play_full_refusal (st : GameState) (a : Nat) (name : List Char)
    (hfull : st.players.length = 26) :
    (handlePlay st a name).1.players = st.players
      ∧ (handlePlay st a name).1.masterGrid = st.masterGrid
      ∧ (handlePlay st a name).1.rawGrid = st.rawGrid
      ∧ (handlePlay st a name).1.goldLeft = st.goldLeft
      ∧ (handlePlay st a name).1.goldCollected = st.goldCollected
      ∧ (handlePlay st a name).1.GoldNumPilesLeft = st.GoldNumPilesLeft
      ∧ (handlePlay st a name).1.outbox
          = st.outbox ++ [(a, SMsg.quitMsg "QUIT Game is full: no more players can join.")]
      ∧ (handlePlay st a name).2 = false := by
  have h : st.players.length = MaxPlayers := hfull
  simp [handlePlay, h, send]

/-- Witness for C9 at a concrete 26-player state. -/
theorem play_full_refusal_witness :
    st26.players.length = 26
      ∧ (handlePlay st26 99 ['X']).1.players = st26.players :=
  ⟨by decide, (play_full_refusal st26 99 ['X'] (by decide)).1⟩

end Nuggets

namespace Nuggets

/-! ## Claim C1: pickup accounting -/

/-- C1: with L = goldLeft and P = GoldNumPilesLeft before the pickup (the
piles present and each pile holding at least one nugget, and justCollected
cleared by the preceding broadcast, as in every reachable pickup), the
received amount g is exactly L when P = 1 and otherwise is the drawn rand
value reduced mod (L - P + 1) plus one, hence between 1 and L - P + 1;
afterwards the purse and justCollected grow by g, goldCollected grows by
g, goldLeft shrinks by g and GoldNumPilesLeft shrinks by one. -/
theorem pickup_gold_accounting (st : GameState) (i : Nat)
    (hi : i < st.players.length)
    (_hP : 1 ≤ st.GoldNumPilesLeft)
    (hPL : st.GoldNumPilesLeft ≤ st.goldLeft)
    (hjc : (st.players.getD i default).justCollected = 0) :
    ∃ g : Int,
      (st.GoldNumPilesLeft = 1 → g = st.goldLeft)
        ∧ (st.GoldNumPilesLeft ≠ 1 →
            1 ≤ g ∧ g ≤ st.goldLeft - st.GoldNumPilesLeft + 1
              ∧ g = cmod ((st.rands.headD 0 : Nat) : Int)
                  (st.goldLeft - st.GoldNumPilesLeft + 1) + 1)
        ∧ ((pickup_gold st i).players.getD i default).gold
            = (st.players.getD i default).gold + g
        ∧ ((pickup_gold st i).players.getD i default).justCollected
            = (st.players.getD i default).justCollected + g
        ∧ (pickup_gold st i).goldCollected = st.goldCollected + g
        ∧ (pickup_gold st i).goldLeft = st.goldLeft - g
        ∧ (pickup_gold st i).GoldNumPilesLeft = st.GoldNumPilesLeft - 1 := by
  have hjc' : (st.players[i]?.getD default).justCollected = 0 := by
    rw [← List.getD_eq_getElem?_getD]
    exact hjc
  by_cases hone : st.GoldNumPilesLeft = 1
  · have heq : pickup_gold st i =
        { st with
          players := st.players.set i
            { st.players.getD i default with
              gold := (st.players.getD i default).gold + st.goldLeft
              justCollected := st.goldLeft }
          goldCollected := st.goldCollected + st.goldLeft
          goldLeft := st.goldLeft - st.goldLeft
          GoldNumPilesLeft := st.GoldNumPilesLeft - 1 } := by
      simp only [pickup_gold, if_neg (by omega : ¬st.GoldNumPilesLeft ≠ 1)]
    refine ⟨st.goldLeft, fun _ => rfl, fun h => absurd hone h, ?_, ?_, ?_, ?_, ?_⟩ <;>
      rw [heq] <;>
      simp only [List.getD_eq_getElem?_getD] <;>
      rw [List.getElem?_set_self hi] <;>
      simp [hjc']
  · have hM : 0 < st.goldLeft - st.GoldNumPilesLeft + 1 := by omega
    have harith : st.goldLeft - st.GoldNumPilesLeft + 1 - 1 + 1
        = st.goldLeft - st.GoldNumPilesLeft + 1 := by ring
    have heq : pickup_gold st i =
        { st with
          rands := st.rands.tail
          players := st.players.set i
            { st.players.getD i default with
              gold := (st.players.getD i default).gold
                + (cmod ((st.rands.headD 0 : Nat) : Int)
                    (st.goldLeft - st.GoldNumPilesLeft + 1) + 1)
              justCollected := cmod ((st.rands.headD 0 : Nat) : Int)
                  (st.goldLeft - st.GoldNumPilesLeft + 1) + 1 }
          goldCollected := st.goldCollected
            + (cmod ((st.rands.headD 0 : Nat) : Int)
                (st.goldLeft - st.GoldNumPilesLeft + 1) + 1)
          goldLeft := st.goldLeft
            - (cmod ((st.rands.headD 0 : Nat) : Int)
                (st.goldLeft - st.GoldNumPilesLeft + 1) + 1)
          GoldNumPilesLeft := st.GoldNumPilesLeft - 1 } := by
      simp only [pickup_gold, randNext, if_pos hone, harith]
    refine ⟨cmod ((st.rands.headD 0 : Nat) : Int) (st.goldLeft - st.GoldNumPilesLeft + 1) + 1,
      fun h => absurd h hone, fun _ => ?_, ?_, ?_, ?_, ?_, ?_⟩
    · have hb := cmod_natCast_bounds (st.rands.headD 0) (st.goldLeft - st.GoldNumPilesLeft + 1) hM
      exact ⟨by omega, by omega, rfl⟩
    all_goals
      rw [heq]
    all_goals
      simp only [List.getD_eq_getElem?_getD]
    · rw [List.getElem?_set_self hi]
      rfl
    · rw [List.getElem?_set_self hi]
      simp [hjc']

/-- Witness for C1 at a concrete state. -/
theorem pickup_gold_accounting_witness :
    0 < stPickup.players.length
      ∧ 1 ≤ stPickup.GoldNumPilesLeft
      ∧ stPickup.GoldNumPilesLeft ≤ stPickup.goldLeft
      ∧ (stPickup.players.getD 0 default).justCollected = 0
      ∧ ∃ g : Int,
          (stPickup.GoldNumPilesLeft = 1 → g = stPickup.goldLeft)
            ∧ (stPickup.GoldNumPilesLeft ≠ 1 →
                1 ≤ g ∧ g ≤ stPickup.goldLeft - stPickup.GoldNumPilesLeft + 1
                  ∧ g = cmod ((stPickup.rands.headD 0 : Nat) : Int)
                      (stPickup.goldLeft - stPickup.GoldNumPilesLeft + 1) + 1)
            ∧ ((pickup_gold stPickup 0).players.getD 0 default).gold
                = (stPickup.players.getD 0 default).gold + g
            ∧ ((pickup_gold stPickup 0).players.getD 0 default).justCollected
                = (stPickup.players.getD 0 default).justCollected + g
            ∧ (pickup_gold stPickup 0).goldCollected = stPickup.goldCollected + g
            ∧ (pickup_gold stPickup 0).goldLeft = stPickup.goldLeft - g
            ∧ (pickup_gold stPickup 0).GoldNumPilesLeft = stPickup.GoldNumPilesLeft - 1 :=
  ⟨by decide, by decide, by decide, by decide,
    pickup_gold_accounting stPickup 0 (by decide) (by decide) (by decide) (by decide)⟩

/-! ## Claim C7: which keys quit -/

/-- C7 counterexample: a KEY q from the seated player A does not quit: the
only reply is the unknown-keystroke ERROR (no QUIT is sent) and A's master
tile still shows A rather than the raw floor tile. -/
theorem lowercase_q_no_quit_counterexample :
    (handleKEY stQ 1 'q').1.outbox = [(1, SMsg.error "ERROR Unknown Keystroke: q")]
      ∧ grid_getchar (handleKEY stQ 1 'q').1.masterGrid 1 1 = 'A'
      ∧ grid_getchar stQ.rawGrid 1 1 = '.' := by decide

end Nuggets

namespace Nuggets

/-! ## Frame lemmas for the server functions -/

theorem grid_update_nrow (g : Grid) (r c : Int) (ch : Char) :
    (grid_update g r c ch).nrow = g.nrow := by
  unfold grid_update; split <;> rfl

theorem grid_update_ncol (g : Grid) (r c : Int) (ch : Char) :
    (grid_update g r c ch).ncol = g.ncol := by
  unfold grid_update; split <;> rfl

theorem grid_update_cells_length (g : Grid) (r c : Int) (ch : Char) :
    (grid_update g r c ch).cells.length = g.cells.length := by
  unfold grid_update; split <;> simp

theorem listGetD_map {α β : Type} (f : α → β) (l : List α) (i : Nat) (d : β) (d' : α)
    (h : i < l.length) : (l.map f).getD i d = f (l.getD i d') := by
  rw [List.getD_eq_getElem _ _ (by simpa using h), List.getD_eq_getElem _ _ h, List.getElem_map]

theorem updatePlayersLoop_fst (m r : Grid) (gl : Int) (ps : List Player) :
    (updatePlayersLoop m r gl ps).1
      = ps.map (fun p =>
          { p with
            justCollected := 0
            seenGrid := grid_setVisibility m r p.seenGrid p.row p.col }) := by
  induction ps with
  | nil => rfl
  | cons p t ih => simp [updatePlayersLoop, ih]

theorem uac_masterGrid (st : GameState) :
    (server_update_all_clients st).masterGrid = st.masterGrid := by
  unfold server_update_all_clients
  cases hs : st.spectatorIP <;> simp [send, hs]

theorem uac_rawGrid (st : GameState) :
    (server_update_all_clients st).rawGrid = st.rawGrid := by
  unfold server_update_all_clients
  cases hs : st.spectatorIP <;> simp [send, hs]

theorem uac_GridRow (st : GameState) :
    (server_update_all_clients st).GridRow = st.GridRow := by
  unfold server_update_all_clients
  cases hs : st.spectatorIP <;> simp [send, hs]

theorem uac_GridCol (st : GameState) :
    (server_update_all_clients st).GridCol = st.GridCol := by
  unfold server_update_all_clients
  cases hs : st.spectatorIP <;> simp [send, hs]

theorem uac_GoldNumPilesLeft (st : GameState) :
    (server_update_all_clients st).GoldNumPilesLeft = st.GoldNumPilesLeft := by
  unfold server_update_all_clients
  cases hs : st.spectatorIP <;> simp [send, hs]

theorem uac_goldCollected (st : GameState) :
    (server_update_all_clients st).goldCollected = st.goldCollected := by
  unfold server_update_all_clients
  cases hs : st.spectatorIP <;> simp [send, hs]

theorem uac_goldLeft (st : GameState) :
    (server_update_all_clients st).goldLeft = st.goldLeft := by
  unfold server_update_all_clients
  cases hs : st.spectatorIP <;> simp [send, hs]

theorem uac_rands (st : GameState) :
    (server_update_all_clients st).rands = st.rands := by
  unfold server_update_all_clients
  cases hs : st.spectatorIP <;> simp [send, hs]

theorem uac_spectatorIP (st : GameState) :
    (server_update_all_clients st).spectatorIP = st.spectatorIP := by
  unfold server_update_all_clients
  cases hs : st.spectatorIP <;> simp [send, hs]

theorem uac_players (st : GameState) :
    (server_update_all_clients st).players
      = st.players.map (fun p =>
          { p with
            justCollected := 0
            seenGrid := grid_setVisibility st.masterGrid st.rawGrid p.seenGrid p.row p.col }) := by
  unfold server_update_all_clients
  cases hs : st.spectatorIP <;> simp [send, updatePlayersLoop_fst, hs]

theorem pickup_masterGrid (st : GameState) (i : Nat) :
    (pickup_gold st i).masterGrid = st.masterGrid := by
  unfold pickup_gold randNext
  split <;> rfl

theorem pickup_rawGrid (st : GameState) (i : Nat) :
    (pickup_gold st i).rawGrid = st.rawGrid := by
  unfold pickup_gold randNext
  split <;> rfl

theorem pickup_GridRow (st : GameState) (i : Nat) :
    (pickup_gold st i).GridRow = st.GridRow := by
  unfold pickup_gold randNext
  split <;> rfl

theorem pickup_GridCol (st : GameState) (i : Nat) :
    (pickup_gold st i).GridCol = st.GridCol := by
  unfold pickup_gold randNext
  split <;> rfl

theorem pickup_spectatorIP (st : GameState) (i : Nat) :
    (pickup_gold st i).spectatorIP = st.spectatorIP := by
  unfold pickup_gold randNext
  split <;> rfl

theorem pickup_players (st : GameState) (i : Nat) :
    (pickup_gold st i).players
      = st.players.set i
          { st.players.getD i default with
            gold := (st.players.getD i default).gold
              + (if st.GoldNumPilesLeft ≠ 1 then
                  cmod ((st.rands.headD 0 : Nat) : Int)
                    (st.goldLeft - st.GoldNumPilesLeft + 1 - 1 + 1) + 1
                 else st.goldLeft)
            justCollected :=
              (if st.GoldNumPilesLeft ≠ 1 then
                  cmod ((st.rands.headD 0 : Nat) : Int)
                    (st.goldLeft - st.GoldNumPilesLeft + 1 - 1 + 1) + 1
               else st.goldLeft) } := by
  unfold pickup_gold randNext
  split <;> rfl

end Nuggets


namespace Nuggets

/-! ## Claim C2: gold conservation -/

theorem sumGold_set (ps : List Player) (i : Nat) (p : Player) (hi : i < ps.length) :
    ((ps.set i p).map Player.gold).sum
      = (ps.map Player.gold).sum - (ps.getD i default).gold + p.gold := by
  have hi' : i < (ps.map Player.gold).length := by simpa using hi
  rw [List.map_set, List.sum_set]
  have hsplit : (ps.map Player.gold).sum
      = ((ps.map Player.gold).take i).sum + ((ps.map Player.gold).drop i).sum := by
    conv_lhs => rw [← List.take_append_drop i (ps.map Player.gold)]
    rw [List.sum_append]
  rw [List.drop_eq_getElem_cons hi'] at hsplit
  have hget : (ps.map Player.gold)[i] = (ps.getD i default).gold := by
    rw [List.getElem_map, ← List.getD_eq_getElem ps default hi]
  rw [List.sum_cons, hget] at hsplit
  rw [if_pos hi']
  omega

theorem sumPurses_uac (st : GameState) :
    sumPurses (server_update_all_clients st) = sumPurses st := by
  unfold sumPurses
  rw [uac_players, List.map_map]
  rfl

theorem findIdx?_some_lt {α : Type} {p : α → Bool} {l : List α} {j : Nat}
    (h : l.findIdx? p = some j) : j < l.length := by
  rw [List.findIdx?_eq_some_iff_findIdx_eq] at h
  exact h.1

theorem pickup_sums (st : GameState) (i : Nat) (hi : i < st.players.length) :
    sumPurses (pickup_gold st i) + (pickup_gold st i).goldLeft
        = sumPurses st + st.goldLeft
      ∧ (pickup_gold st i).goldCollected + (pickup_gold st i).goldLeft
        = st.goldCollected + st.goldLeft
      ∧ (pickup_gold st i).players.length = st.players.length := by
  refine ⟨?_, ?_, by simp [pickup_players]⟩
  · show ((pickup_gold st i).players.map Player.gold).sum + _ = _
    rw [pickup_players, sumGold_set st.players i _ hi]
    have hleft : (pickup_gold st i).goldLeft
        = st.goldLeft - (if st.GoldNumPilesLeft ≠ 1 then
            cmod ((st.rands.headD 0 : Nat) : Int)
              (st.goldLeft - st.GoldNumPilesLeft + 1 - 1 + 1) + 1
          else st.goldLeft) := by
      unfold pickup_gold randNext
      split <;> rfl
    rw [hleft]
    show (st.players.map Player.gold).sum - _ + _ + _ = _
    unfold sumPurses
    simp only
    ring
  · have hcol : (pickup_gold st i).goldCollected
        = st.goldCollected + (if st.GoldNumPilesLeft ≠ 1 then
            cmod ((st.rands.headD 0 : Nat) : Int)
              (st.goldLeft - st.GoldNumPilesLeft + 1 - 1 + 1) + 1
          else st.goldLeft) := by
      unfold pickup_gold randNext
      split <;> rfl
    have hleft : (pickup_gold st i).goldLeft
        = st.goldLeft - (if st.GoldNumPilesLeft ≠ 1 then
            cmod ((st.rands.headD 0 : Nat) : Int)
              (st.goldLeft - st.GoldNumPilesLeft + 1 - 1 + 1) + 1
          else st.goldLeft) := by
      unfold pickup_gold randNext
      split <;> rfl
    rw [hcol, hleft]
    ring

theorem pm_step_sums (st : GameState) (i : Nat) (nr nc : Int) (hi : i < st.players.length) :
    sumPurses (pm_step st i nr nc) = sumPurses st
      ∧ (pm_step st i nr nc).goldLeft = st.goldLeft
      ∧ (pm_step st i nr nc).goldCollected = st.goldCollected
      ∧ (pm_step st i nr nc).players.length = st.players.length := by
  refine ⟨?_, rfl, rfl, by simp [pm_step]⟩
  unfold sumPurses pm_step
  simp only
  rw [sumGold_set _ i _ hi]
  simp

theorem pm_swap_sums (st : GameState) (i j : Nat) (nr nc : Int)
    (hi : i < st.players.length) (hj : j < st.players.length) :
    sumPurses (pm_swap st i j nr nc) = sumPurses st
      ∧ (pm_swap st i j nr nc).goldLeft = st.goldLeft
      ∧ (pm_swap st i j nr nc).goldCollected = st.goldCollected
      ∧ (pm_swap st i j nr nc).players.length = st.players.length := by
  unfold pm_swap
  simp only
  refine ⟨?_, ?_, ?_, ?_⟩
  · rw [sumPurses_uac]
    unfold sumPurses
    simp only
    rw [sumGold_set _ i _ (by simpa using hi), sumGold_set _ j _ hj]
    simp only
    ring
  · rw [uac_goldLeft]
  · rw [uac_goldCollected]
  · rw [uac_players]
    simp

theorem player_move_sums (st : GameState) (i : Nat) (nr nc : Int)
    (hi : i < st.players.length) :
    sumPurses (player_move st i nr nc).1 + (player_move st i nr nc).1.goldLeft
        = sumPurses st + st.goldLeft
      ∧ (player_move st i nr nc).1.goldCollected + (player_move st i nr nc).1.goldLeft
        = st.goldCollected + st.goldLeft
      ∧ (player_move st i nr nc).1.players.length = st.players.length := by
  unfold player_move
  split
  · split
    · split
      · next j hfind =>
        have hj : j < st.players.length := findIdx?_some_lt hfind
        have h := pm_swap_sums st i j nr nc hi hj
        exact ⟨by rw [h.1, h.2.1], by rw [h.2.2.1, h.2.1], h.2.2.2⟩
      · exact ⟨rfl, rfl, rfl⟩
    · split
      · have hs := pm_step_sums st i nr nc hi
        have hi1 : i < (pm_step st i nr nc).players.length := by
          rw [hs.2.2.2]; exact hi
        have hp := pickup_sums (pm_step st i nr nc) i hi1
        refine ⟨?_, ?_, ?_⟩
        · show sumPurses (server_update_all_clients _) + _ = _
          rw [sumPurses_uac, uac_goldLeft, hp.1, hs.1, hs.2.1]
        · show (server_update_all_clients _).goldCollected + _ = _
          rw [uac_goldCollected, uac_goldLeft, hp.2.1, hs.2.1, hs.2.2.1]
        · show (server_update_all_clients _).players.length = _
          rw [uac_players]
          simp only [List.length_map]
          rw [hp.2.2, hs.2.2.2]
      · have hs := pm_step_sums st i nr nc hi
        refine ⟨?_, ?_, ?_⟩
        · show sumPurses (server_update_all_clients _) + _ = _
          rw [sumPurses_uac, uac_goldLeft, hs.1, hs.2.1]
        · show (server_update_all_clients _).goldCollected + _ = _
          rw [uac_goldCollected, uac_goldLeft, hs.2.1, hs.2.2.1]
        · show (server_update_all_clients _).players.length = _
          rw [uac_players]
          simp only [List.length_map]
          rw [hs.2.2.2]
  · exact ⟨rfl, rfl, rfl⟩

end Nuggets

namespace Nuggets

theorem moveLoop_sums (i : Nat) (dr dc : Int) (fuel : Nat) :
    ∀ (st : GameState) (row col : Int), i < st.players.length →
      sumPurses (moveLoop i dr dc fuel st row col).1
          + (moveLoop i dr dc fuel st row col).1.goldLeft = sumPurses st + st.goldLeft
        ∧ (moveLoop i dr dc fuel st row col).1.goldCollected
          + (moveLoop i dr dc fuel st row col).1.goldLeft = st.goldCollected + st.goldLeft
        ∧ (moveLoop i dr dc fuel st row col).1.players.length = st.players.length := by
  induction fuel with
  | zero => exact fun st row col _ => ⟨rfl, rfl, rfl⟩
  | succ n ih =>
    intro st row col hi
    simp only [moveLoop]
    have hpm := player_move_sums st i (row + dr) (col + dc) hi
    by_cases hr : (player_move st i (row + dr) (col + dc)).2 = true
    · rw [if_pos hr]
      exact hpm
    · rw [if_neg hr]
      have hi' : i < (player_move st i (row + dr) (col + dc)).1.players.length := by
        rw [hpm.2.2]
        exact hi
      have hrec := ih (player_move st i (row + dr) (col + dc)).1 (row + dr) (col + dc) hi'
      exact ⟨hrec.1.trans hpm.1, hrec.2.1.trans hpm.2.1, hrec.2.2.trans hpm.2.2⟩

theorem lastMatchIdx_spec (ps : List Player) (a : Nat) (i : Nat)
    (h : lastMatchIdx ps a = some i) : i < ps.length ∧ (ps.getD i default).IP = a := by
  unfold lastMatchIdx at h
  suffices H : ∀ (l : List Nat) (acc : Option Nat),
      (∀ j, acc = some j → j < ps.length ∧ (ps.getD j default).IP = a) →
      (∀ x ∈ l, x < ps.length) →
      ∀ j, l.foldl (fun acc i => if (ps.getD i default).IP = a then some i else acc) acc
          = some j →
        j < ps.length ∧ (ps.getD j default).IP = a by
    refine H (List.range ps.length) none (fun j hj => by cases hj) ?_ i h
    intro x hx
    simpa using hx
  intro l
  induction l with
  | nil => exact fun acc hacc _ j hj => hacc j hj
  | cons x t ih =>
    intro acc hacc hmem j hj
    simp only [List.foldl_cons] at hj
    refine ih _ ?_ (fun y hy => hmem y (by simp [hy])) j hj
    intro j' hj'
    by_cases hx : (ps.getD x default).IP = a
    · rw [if_pos hx] at hj'
      cases hj'
      exact ⟨hmem x (by simp), hx⟩
    · rw [if_neg hx] at hj'
      exact hacc j' hj'

theorem GoldInv_of_sums {st st' : GameState} (h : GoldInv st)
    (h1 : sumPurses st' + st'.goldLeft = sumPurses st + st.goldLeft)
    (h2 : st'.goldCollected + st'.goldLeft = st.goldCollected + st.goldLeft) :
    GoldInv st' :=
  ⟨by rw [h1]; exact h.1, by rw [h2]; exact h.2⟩

theorem handleQUIT_GoldInv (st : GameState) (a : Nat) (h : GoldInv st) :
    GoldInv (handleQUIT st a).1 := by
  unfold handleQUIT
  simp only
  split <;> refine GoldInv_of_sums h ?_ ?_ <;>
    first
    | (rw [sumPurses_uac, uac_goldLeft]; try rfl)
    | (rw [uac_goldCollected, uac_goldLeft]; try rfl)

theorem keyDispatch_GoldInv (st : GameState) (i : Nat) (row col : Int) (pIP : Nat)
    (c : Char) (hi : i < st.players.length) (h : GoldInv st) :
    GoldInv (keyDispatch st i row col pIP c) := by
  unfold keyDispatch
  by_cases hk0 : c = 'h'
  · rw [if_pos hk0]
    exact GoldInv_of_sums h (player_move_sums st i _ _ hi).1
      (player_move_sums st i _ _ hi).2.1
  rw [if_neg hk0]
  by_cases hk1 : c = 'H'
  · rw [if_pos hk1]
    exact GoldInv_of_sums h (moveLoop_sums i _ _ _ st _ _ hi).1
      (moveLoop_sums i _ _ _ st _ _ hi).2.1
  rw [if_neg hk1]
  by_cases hk2 : c = 'l'
  · rw [if_pos hk2]
    exact GoldInv_of_sums h (player_move_sums st i _ _ hi).1
      (player_move_sums st i _ _ hi).2.1
  rw [if_neg hk2]
  by_cases hk3 : c = 'L'
  · rw [if_pos hk3]
    exact GoldInv_of_sums h (moveLoop_sums i _ _ _ st _ _ hi).1
      (moveLoop_sums i _ _ _ st _ _ hi).2.1
  rw [if_neg hk3]
  by_cases hk4 : c = 'j'
  · rw [if_pos hk4]
    exact GoldInv_of_sums h (player_move_sums st i _ _ hi).1
      (player_move_sums st i _ _ hi).2.1
  rw [if_neg hk4]
  by_cases hk5 : c = 'J'
  · rw [if_pos hk5]
    exact GoldInv_of_sums h (moveLoop_sums i _ _ _ st _ _ hi).1
      (moveLoop_sums i _ _ _ st _ _ hi).2.1
  rw [if_neg hk5]
  by_cases hk6 : c = 'k'
  · rw [if_pos hk6]
    exact GoldInv_of_sums h (player_move_sums st i _ _ hi).1
      (player_move_sums st i _ _ hi).2.1
  rw [if_neg hk6]
  by_cases hk7 : c = 'K'
  · rw [if_pos hk7]
    exact GoldInv_of_sums h (moveLoop_sums i _ _ _ st _ _ hi).1
      (moveLoop_sums i _ _ _ st _ _ hi).2.1
  rw [if_neg hk7]
  by_cases hk8 : c = 'y'
  · rw [if_pos hk8]
    exact GoldInv_of_sums h (player_move_sums st i _ _ hi).1
      (player_move_sums st i _ _ hi).2.1
  rw [if_neg hk8]
  by_cases hk9 : c = 'Y'
  · rw [if_pos hk9]
    exact GoldInv_of_sums h (moveLoop_sums i _ _ _ st _ _ hi).1
      (moveLoop_sums i _ _ _ st _ _ hi).2.1
  rw [if_neg hk9]
  by_cases hk10 : c = 'u'
  · rw [if_pos hk10]
    exact GoldInv_of_sums h (player_move_sums st i _ _ hi).1
      (player_move_sums st i _ _ hi).2.1
  rw [if_neg hk10]
  by_cases hk11 : c = 'U'
  · rw [if_pos hk11]
    exact GoldInv_of_sums h (moveLoop_sums i _ _ _ st _ _ hi).1
      (moveLoop_sums i _ _ _ st _ _ hi).2.1
  rw [if_neg hk11]
  by_cases hk12 : c = 'b'
  · rw [if_pos hk12]
    exact GoldInv_of_sums h (player_move_sums st i _ _ hi).1
      (player_move_sums st i _ _ hi).2.1
  rw [if_neg hk12]
  by_cases hk13 : c = 'B'
  · rw [if_pos hk13]
    exact GoldInv_of_sums h (moveLoop_sums i _ _ _ st _ _ hi).1
      (moveLoop_sums i _ _ _ st _ _ hi).2.1
  rw [if_neg hk13]
  by_cases hk14 : c = 'n'
  · rw [if_pos hk14]
    exact GoldInv_of_sums h (player_move_sums st i _ _ hi).1
      (player_move_sums st i _ _ hi).2.1
  rw [if_neg hk14]
  by_cases hk15 : c = 'N'
  · rw [if_pos hk15]
    exact GoldInv_of_sums h (moveLoop_sums i _ _ _ st _ _ hi).1
      (moveLoop_sums i _ _ _ st _ _ hi).2.1
  rw [if_neg hk15]
  exact GoldInv_of_sums h rfl rfl

theorem handleKEY_GoldInv (st : GameState) (a : Nat) (c : Char) (h : GoldInv st) :
    GoldInv (handleKEY st a c).1 := by
  unfold handleKEY
  by_cases hq : c = 'Q'
  · rw [if_pos hq]
    exact handleQUIT_GoldInv st a h
  · rw [if_neg hq]
    cases hfind : lastMatchIdx st.players a with
    | none => exact h
    | some i =>
      have hi := (lastMatchIdx_spec st.players a i hfind).1
      exact keyDispatch_GoldInv st i _ _ _ c hi h

theorem handlePlay_GoldInv (st : GameState) (a : Nat) (name : List Char) (h : GoldInv st) :
    GoldInv (handlePlay st a name).1 := by
  unfold handlePlay
  split
  · exact GoldInv_of_sums h rfl rfl
  · split
    · exact GoldInv_of_sums h rfl rfl
    · cases hdrop : server_drop_player st.masterGrid st.GridRow st.GridCol st.rands with
      | none => exact h
      | some pos =>
        obtain ⟨row, col, rands'⟩ := pos
        refine GoldInv_of_sums h ?_ ?_
        · rw [sumPurses_uac, uac_goldLeft]
          unfold sumPurses
          simp [send]
        · rw [uac_goldCollected, uac_goldLeft]
          rfl

theorem handleSPECTATE_GoldInv (st : GameState) (a : Nat) (h : GoldInv st) :
    GoldInv (handleSPECTATE st a).1 := by
  unfold handleSPECTATE
  cases hs : st.spectatorIP <;>
    exact GoldInv_of_sums h
      (by rw [show sumPurses (server_update_all_clients _) = _ from sumPurses_uac _,
          uac_goldLeft]; rfl)
      (by rw [uac_goldCollected, uac_goldLeft]; rfl)

theorem handleMessage_GoldInv (st : GameState) (a : Nat) (m : ClientMsg) (h : GoldInv st) :
    GoldInv (handleMessage st a m).1 := by
  cases m with
  | play name => exact handlePlay_GoldInv st a name h
  | spectate => exact handleSPECTATE_GoldInv st a h
  | key c => exact handleKEY_GoldInv st a c h

theorem initState_GoldInv (map : Grid) (s : List Nat) : GoldInv (initState map s) := by
  constructor <;> simp [initState, server_drop_gold, randNext, sumPurses, GoldTotal]

/-- C2: in every state reachable from setup (server_drop_gold) by any
sequence of inbound messages, the sum of the players' purses plus goldLeft
is 250, and goldCollected plus goldLeft is 250: join, move, pickup, quit
and spectate all preserve both equations. -/
theorem gold_conservation (map : Grid) (s : List Nat) (msgs : List (Nat × ClientMsg)) :
    sumPurses (runMsgs (initState map s) msgs)
        + (runMsgs (initState map s) msgs).goldLeft = 250
      ∧ (runMsgs (initState map s) msgs).goldCollected
        + (runMsgs (initState map s) msgs).goldLeft = 250 := by
  suffices H : ∀ (l : List (Nat × ClientMsg)) (st : GameState),
      GoldInv st → GoldInv (runMsgs st l) by
    exact H msgs _ (initState_GoldInv map s)
  intro l
  induction l with
  | nil => exact fun st h => h
  | cons m t ih =>
    intro st h
    exact ih _ (handleMessage_GoldInv _ _ _ h)

end Nuggets

namespace Nuggets

/-! ## Claim C10: positions stay inside the grid -/

theorem grid_getchar_oob (g : Grid) (r c : Int) (h : ¬grid_inBounds g r c) :
    grid_getchar g r c = '^' := by
  unfold grid_getchar
  rw [if_neg h]

theorem grid_canMoveTo_inBounds (g : Grid) (r c : Int) (h : grid_canMoveTo g r c = true) :
    grid_inBounds g r c := by
  by_contra hc
  simp only [grid_canMoveTo, grid_isBoundary, grid_isRock] at h
  rw [grid_getchar_oob g r c hc] at h
  exact absurd h (by decide)

theorem posInBounds_iff (g : Grid) (p : Player) :
    posInBounds g p ↔ grid_inBounds g p.row p.col :=
  Iff.rfl

theorem posInBounds_dims {g g' : Grid} (p : Player) (h1 : g'.nrow = g.nrow)
    (h2 : g'.ncol = g.ncol) : posInBounds g' p ↔ posInBounds g p := by
  unfold posInBounds
  rw [h1, h2]

theorem pm_step_masterDims (st : GameState) (i : Nat) (nr nc : Int) :
    (pm_step st i nr nc).masterGrid.nrow = st.masterGrid.nrow
      ∧ (pm_step st i nr nc).masterGrid.ncol = st.masterGrid.ncol := by
  unfold pm_step
  exact ⟨by simp [grid_update_nrow], by simp [grid_update_ncol]⟩

theorem pm_swap_masterDims (st : GameState) (i j : Nat) (nr nc : Int) :
    (pm_swap st i j nr nc).masterGrid.nrow = st.masterGrid.nrow
      ∧ (pm_swap st i j nr nc).masterGrid.ncol = st.masterGrid.ncol := by
  unfold pm_swap
  simp only
  rw [uac_masterGrid]
  exact ⟨by simp [grid_update_nrow], by simp [grid_update_ncol]⟩

theorem player_move_masterDims (st : GameState) (i : Nat) (nr nc : Int) :
    (player_move st i nr nc).1.masterGrid.nrow = st.masterGrid.nrow
      ∧ (player_move st i nr nc).1.masterGrid.ncol = st.masterGrid.ncol := by
  unfold player_move
  split
  · split
    · split
      · next j _ => exact pm_swap_masterDims st i j nr nc
      · exact ⟨rfl, rfl⟩
    · split
      · rw [show ((server_update_all_clients (pickup_gold (pm_step st i nr nc) i),
            false) : GameState × Bool).1 = _ from rfl, uac_masterGrid, pickup_masterGrid]
        exact pm_step_masterDims st i nr nc
      · rw [show ((server_update_all_clients (pm_step st i nr nc),
            false) : GameState × Bool).1 = _ from rfl, uac_masterGrid]
        exact pm_step_masterDims st i nr nc
  · exact ⟨rfl, rfl⟩

theorem uac_PosInv (st : GameState) (h : PosInv st) : PosInv (server_update_all_clients st) := by
  intro k hk
  rw [uac_players] at hk
  simp only [List.length_map] at hk
  rw [uac_players, listGetD_map _ _ _ _ default hk]
  rw [posInBounds_dims _ (by rw [uac_masterGrid]) (by rw [uac_masterGrid])]
  exact h k hk

theorem pickup_PosInv (st : GameState) (i : Nat) (h : PosInv st) :
    PosInv (pickup_gold st i) := by
  intro k hk
  rw [pickup_players] at hk ⊢
  simp only [List.length_set] at hk
  rw [posInBounds_dims _ (by rw [pickup_masterGrid]) (by rw [pickup_masterGrid])]
  by_cases hki : k = i
  · subst hki
    rw [listGetD_set_self _ _ _ _ hk]
    exact h k hk
  · rw [listGetD_set_ne _ _ _ (fun hh => hki hh.symm)]
    exact h k hk

theorem pm_step_PosInv (st : GameState) (i : Nat) (nr nc : Int)
    (hmv : grid_inBounds st.masterGrid nr nc) (h : PosInv st) :
    PosInv (pm_step st i nr nc) := by
  intro k hk
  have hlen : (pm_step st i nr nc).players.length = st.players.length := by simp [pm_step]
  rw [hlen] at hk
  rw [posInBounds_dims _ (pm_step_masterDims st i nr nc).1 (pm_step_masterDims st i nr nc).2]
  show posInBounds st.masterGrid ((st.players.set i _).getD k default)
  by_cases hki : k = i
  · subst hki
    rw [listGetD_set_self _ _ _ _ hk]
    exact hmv
  · rw [listGetD_set_ne _ _ _ (fun hh => hki hh.symm)]
    exact h k hk

theorem posInBounds_of_dims (g g' : Grid) (p : Player) (h1 : g'.nrow = g.nrow)
    (h2 : g'.ncol = g.ncol) (h : posInBounds g p) : posInBounds g' p := by
  unfold posInBounds at h ⊢
  rw [h1, h2]
  exact h

theorem pm_swap_PosInv (st : GameState) (i j : Nat) (nr nc : Int)
    (hi : i < st.players.length)
    (hmv : grid_inBounds st.masterGrid nr nc) (h : PosInv st) :
    PosInv (pm_swap st i j nr nc) := by
  unfold pm_swap
  simp only
  apply uac_PosInv
  intro k hk
  simp only [List.length_set] at hk
  apply posInBounds_of_dims st.masterGrid
  · simp [grid_update_nrow]
  · simp [grid_update_ncol]
  show posInBounds st.masterGrid _
  by_cases hki : k = i
  · subst hki
    rw [listGetD_set_self _ _ _ _ (by simpa using hk)]
    exact hmv
  · rw [listGetD_set_ne _ _ _ (fun hh => hki hh.symm)]
    by_cases hkj : k = j
    · subst hkj
      rw [listGetD_set_self _ _ _ _ hk]
      exact h i hi
    · rw [listGetD_set_ne _ _ _ (fun hh => hkj hh.symm)]
      exact h k hk

theorem player_move_PosInv (st : GameState) (i : Nat) (nr nc : Int)
    (hi : i < st.players.length) (h : PosInv st) :
    PosInv (player_move st i nr nc).1 := by
  unfold player_move
  split
  · next hmv =>
    have hb : grid_inBounds st.masterGrid nr nc := grid_canMoveTo_inBounds _ _ _ hmv
    split
    · split
      · next j _ => exact pm_swap_PosInv st i j nr nc hi hb h
      · exact h
    · split
      · exact uac_PosInv _ (pickup_PosInv _ i (pm_step_PosInv st i nr nc hb h))
      · exact uac_PosInv _ (pm_step_PosInv st i nr nc hb h)
  · exact h

end Nuggets

namespace Nuggets

theorem moveLoop_PosInv (i : Nat) (dr dc : Int) (fuel : Nat) :
    ∀ (st : GameState) (row col : Int), i < st.players.length → PosInv st →
      PosInv (moveLoop i dr dc fuel st row col).1 := by
  induction fuel with
  | zero => exact fun st row col _ h => h
  | succ n ih =>
    intro st row col hi h
    simp only [moveLoop]
    by_cases hr : (player_move st i (row + dr) (col + dc)).2 = true
    · rw [if_pos hr]
      exact player_move_PosInv st i _ _ hi h
    · rw [if_neg hr]
      exact ih _ (row + dr) (col + dc)
        (by rw [(player_move_sums st i _ _ hi).2.2]; exact hi)
        (player_move_PosInv st i _ _ hi h)

theorem send_PosInv (st : GameState) (a : Nat) (m : SMsg) (h : PosInv st) :
    PosInv (send st a m) := h

theorem keyDispatch_PosInv (st : GameState) (i : Nat) (row col : Int) (pIP : Nat)
    (c : Char) (hi : i < st.players.length) (h : PosInv st) :
    PosInv (keyDispatch st i row col pIP c) := by
  unfold keyDispatch
  by_cases hk0 : c = 'h'
  · rw [if_pos hk0]
    exact player_move_PosInv st i _ _ hi h
  rw [if_neg hk0]
  by_cases hk1 : c = 'H'
  · rw [if_pos hk1]
    exact moveLoop_PosInv i _ _ _ st row col hi h
  rw [if_neg hk1]
  by_cases hk2 : c = 'l'
  · rw [if_pos hk2]
    exact player_move_PosInv st i _ _ hi h
  rw [if_neg hk2]
  by_cases hk3 : c = 'L'
  · rw [if_pos hk3]
    exact moveLoop_PosInv i _ _ _ st row col hi h
  rw [if_neg hk3]
  by_cases hk4 : c = 'j'
  · rw [if_pos hk4]
    exact player_move_PosInv st i _ _ hi h
  rw [if_neg hk4]
  by_cases hk5 : c = 'J'
  · rw [if_pos hk5]
    exact moveLoop_PosInv i _ _ _ st row col hi h
  rw [if_neg hk5]
  by_cases hk6 : c = 'k'
  · rw [if_pos hk6]
    exact player_move_PosInv st i _ _ hi h
  rw [if_neg hk6]
  by_cases hk7 : c = 'K'
  · rw [if_pos hk7]
    exact moveLoop_PosInv i _ _ _ st row col hi h
  rw [if_neg hk7]
  by_cases hk8 : c = 'y'
  · rw [if_pos hk8]
    exact player_move_PosInv st i _ _ hi h
  rw [if_neg hk8]
  by_cases hk9 : c = 'Y'
  · rw [if_pos hk9]
    exact moveLoop_PosInv i _ _ _ st row col hi h
  rw [if_neg hk9]
  by_cases hk10 : c = 'u'
  · rw [if_pos hk10]
    exact player_move_PosInv st i _ _ hi h
  rw [if_neg hk10]
  by_cases hk11 : c = 'U'
  · rw [if_pos hk11]
    exact moveLoop_PosInv i _ _ _ st row col hi h
  rw [if_neg hk11]
  by_cases hk12 : c = 'b'
  · rw [if_pos hk12]
    exact player_move_PosInv st i _ _ hi h
  rw [if_neg hk12]
  by_cases hk13 : c = 'B'
  · rw [if_pos hk13]
    exact moveLoop_PosInv i _ _ _ st row col hi h
  rw [if_neg hk13]
  by_cases hk14 : c = 'n'
  · rw [if_pos hk14]
    exact player_move_PosInv st i _ _ hi h
  rw [if_neg hk14]
  by_cases hk15 : c = 'N'
  · rw [if_pos hk15]
    exact moveLoop_PosInv i _ _ _ st row col hi h
  rw [if_neg hk15]
  exact send_PosInv _ _ _ h

theorem quitRestoreLoop_dims (raw : Grid) (a : Nat) (ps : List Player) :
    ∀ (g : Grid) (out : List (Nat × SMsg)),
      (quitRestoreLoop raw a ps g out).1.nrow = g.nrow
        ∧ (quitRestoreLoop raw a ps g out).1.ncol = g.ncol := by
  induction ps with
  | nil => exact fun g out => ⟨rfl, rfl⟩
  | cons p t ih =>
    intro g out
    unfold quitRestoreLoop
    split
    · have hrec := ih (grid_update g p.row p.col (grid_getchar raw p.row p.col))
        (out ++ [(a, SMsg.quitMsg "QUIT Thanks for playing!")])
      exact ⟨hrec.1.trans (grid_update_nrow _ _ _ _), hrec.2.trans (grid_update_ncol _ _ _ _)⟩
    · exact ih g out

theorem handleQUIT_PosInv (st : GameState) (a : Nat) (h : PosInv st) :
    PosInv (handleQUIT st a).1 := by
  unfold handleQUIT
  simp only
  split
  all_goals
    apply uac_PosInv
    intro k hk
    refine posInBounds_of_dims st.masterGrid _ _ ?_ ?_ ?_
    · exact (quitRestoreLoop_dims _ _ _ _ _).1
    · exact (quitRestoreLoop_dims _ _ _ _ _).2
    · exact h k hk

/-- C10: a KEY message never moves any seated player out of the grid:
out-of-bounds reads return the sentinel, grid_canMoveTo rejects the
sentinel, and player_move leaves the position unchanged on a rejected
target, so in-bounds positions are preserved by every key. -/
theorem positions_stay_in_bounds (st : GameState) (a : Nat) (c : Char)
    (hb : ∀ k, k < st.players.length →
      posInBounds st.masterGrid (st.players.getD k default)) :
    ∀ k, k < (handleKEY st a c).1.players.length →
      posInBounds (handleKEY st a c).1.masterGrid
        ((handleKEY st a c).1.players.getD k default) := by
  show PosInv (handleKEY st a c).1
  unfold handleKEY
  by_cases hq : c = 'Q'
  · rw [if_pos hq]
    exact handleQUIT_PosInv st a hb
  · rw [if_neg hq]
    cases hfind : lastMatchIdx st.players a with
    | none => exact hb
    | some i =>
      exact keyDispatch_PosInv st i _ _ _ c (lastMatchIdx_spec st.players a i hfind).1 hb

/-- Witness for C10 at a concrete state and key. -/
theorem positions_stay_in_bounds_witness :
    (∀ k, k < stQ.players.length →
        posInBounds stQ.masterGrid (stQ.players.getD k default))
      ∧ ∀ k, k < (handleKEY stQ 1 'l').1.players.length →
          posInBounds (handleKEY stQ 1 'l').1.masterGrid
            ((handleKEY stQ 1 'l').1.players.getD k default) :=
  ⟨by decide, positions_stay_in_bounds stQ 1 'l' (by decide)⟩

end Nuggets

namespace Nuggets

/-! ## Claim C7: which keys quit, and what Q does -/

theorem flatIdx_lt (g : Grid) (r c : Int) (h : grid_inBounds g r c) :
    (r * g.ncol + c).toNat < (g.nrow * g.ncol).toNat := by
  obtain ⟨h1, h2, h3, h4⟩ := h
  have h5 : 0 ≤ r * g.ncol := mul_nonneg h1 (by omega)
  have h6 : r * g.ncol + c < g.nrow * g.ncol := by
    have h7 : (r + 1) * g.ncol ≤ g.nrow * g.ncol :=
      mul_le_mul_of_nonneg_right (by omega) (by omega)
    nlinarith
  set x := r * g.ncol with hx
  set y := g.nrow * g.ncol with hy
  omega

theorem flatIdx_inj (g : Grid) {r c r' c' : Int} (h : grid_inBounds g r c)
    (h' : grid_inBounds g r' c')
    (heq : (r * g.ncol + c).toNat = (r' * g.ncol + c').toNat) : r = r' ∧ c = c' := by
  obtain ⟨hr0, hrn, hc0, hcn⟩ := h
  obtain ⟨hr0', hrn', hc0', hcn'⟩ := h'
  have e1 : 0 ≤ r * g.ncol := mul_nonneg hr0 (by omega)
  have e2 : 0 ≤ r' * g.ncol := mul_nonneg hr0' (by omega)
  have e : r * g.ncol + c = r' * g.ncol + c' := by
    set x := r * g.ncol with hx
    set y := r' * g.ncol with hy
    omega
  have hrr : r = r' := by
    by_contra hne
    rcases lt_or_gt_of_ne hne with hlt | hgt
    · have key : (r' - r) * g.ncol = c - c' := by linear_combination -e
      have hb1 : 1 * g.ncol ≤ (r' - r) * g.ncol :=
        mul_le_mul_of_nonneg_right (by omega) (by omega)
      linarith
    · have key : (r - r') * g.ncol = c' - c := by linear_combination e
      have hb1 : 1 * g.ncol ≤ (r - r') * g.ncol :=
        mul_le_mul_of_nonneg_right (by omega) (by omega)
      linarith
  subst hrr
  exact ⟨rfl, by linarith⟩

theorem grid_getchar_update_self (g : Grid) (r c : Int) (ch : Char)
    (hwf : g.cells.length = (g.nrow * g.ncol).toNat) (hb : grid_inBounds g r c) :
    grid_getchar (grid_update g r c ch) r c = ch := by
  unfold grid_update grid_getchar
  rw [if_pos hb, if_pos (show grid_inBounds { g with cells := g.cells.set _ ch } r c from hb)]
  have hidx : (r * g.ncol + c).toNat < g.cells.length := by
    rw [hwf]
    exact flatIdx_lt g r c hb
  show (g.cells.set (r * g.ncol + c).toNat ch).getD (r * g.ncol + c).toNat ' ' = ch
  rw [List.getD_eq_getElem?_getD, List.getElem?_set_self hidx]
  rfl

theorem grid_getchar_update_ne (g : Grid) {r c r' c' : Int} (ch : Char)
    (h : ¬(r' = r ∧ c' = c)) :
    grid_getchar (grid_update g r c ch) r' c' = grid_getchar g r' c' := by
  by_cases hb : grid_inBounds g r c
  · unfold grid_update
    rw [if_pos hb]
    by_cases hb' : grid_inBounds g r' c'
    · unfold grid_getchar
      rw [if_pos (show grid_inBounds { g with cells := g.cells.set _ ch } r' c' from hb'),
        if_pos hb']
      show (g.cells.set (r * g.ncol + c).toNat ch).getD (r' * g.ncol + c').toNat ' '
        = g.cells.getD (r' * g.ncol + c').toNat ' '
      rw [List.getD_eq_getElem?_getD, List.getD_eq_getElem?_getD,
        List.getElem?_set_ne
          (fun hcontra => h ⟨(flatIdx_inj g hb hb' hcontra).1.symm,
            (flatIdx_inj g hb hb' hcontra).2.symm⟩)]
    · unfold grid_getchar
      rw [if_neg (show ¬grid_inBounds { g with cells := g.cells.set _ ch } r' c' from hb'),
        if_neg hb']
  · unfold grid_update
    rw [if_neg hb]

theorem grid_update_wf (g : Grid) (r c : Int) (ch : Char)
    (hwf : g.cells.length = (g.nrow * g.ncol).toNat) :
    (grid_update g r c ch).cells.length
      = ((grid_update g r c ch).nrow * (grid_update g r c ch).ncol).toNat := by
  rw [grid_update_cells_length, grid_update_nrow, grid_update_ncol]
  exact hwf

theorem quitRestoreLoop_stable (raw : Grid) (a : Nat) (ps : List Player) :
    ∀ (g : Grid) (out : List (Nat × SMsg)) (x y : Int),
      g.cells.length = (g.nrow * g.ncol).toNat →
      grid_getchar g x y = grid_getchar raw x y →
      grid_getchar (quitRestoreLoop raw a ps g out).1 x y = grid_getchar raw x y := by
  induction ps with
  | nil => exact fun g out x y _ h => h
  | cons p t ih =>
    intro g out x y hwf hxy
    unfold quitRestoreLoop
    split
    · apply ih
      · exact grid_update_wf g p.row p.col _ hwf
      · by_cases hcell : x = p.row ∧ y = p.col
        · obtain ⟨hx, hy⟩ := hcell
          subst hx
          subst hy
          by_cases hbb : grid_inBounds g p.row p.col
          · rw [grid_getchar_update_self g p.row p.col _ hwf hbb]
          · unfold grid_update
            rw [if_neg hbb]
            exact hxy
        · rw [grid_getchar_update_ne g _ hcell]
          exact hxy
    · exact ih g out x y hwf hxy

theorem quitRestoreLoop_restores (raw : Grid) (a : Nat) (ps : List Player) :
    ∀ (g : Grid) (out : List (Nat × SMsg)) (k : Nat),
      k < ps.length → (ps.getD k default).IP = a →
      grid_inBounds g (ps.getD k default).row (ps.getD k default).col →
      g.cells.length = (g.nrow * g.ncol).toNat →
      grid_getchar (quitRestoreLoop raw a ps g out).1
          (ps.getD k default).row (ps.getD k default).col
        = grid_getchar raw (ps.getD k default).row (ps.getD k default).col := by
  induction ps with
  | nil =>
    intro g out k hk
    exact absurd hk (by simp)
  | cons p t ih =>
    intro g out k hk hIP hb hwf
    cases k with
    | zero =>
      show grid_getchar (quitRestoreLoop raw a (p :: t) g out).1 p.row p.col
        = grid_getchar raw p.row p.col
      unfold quitRestoreLoop
      rw [if_pos (by exact hIP)]
      apply quitRestoreLoop_stable raw a t
      · exact grid_update_wf g p.row p.col _ hwf
      · exact grid_getchar_update_self g p.row p.col _ hwf hb
    | succ k' =>
      show grid_getchar (quitRestoreLoop raw a (p :: t) g out).1
          (t.getD k' default).row (t.getD k' default).col
        = grid_getchar raw (t.getD k' default).row (t.getD k' default).col
      unfold quitRestoreLoop
      split
      · exact ih _ _ k' (by simpa using hk) hIP
          (by
            constructor
            · exact hb.1
            constructor
            · rw [grid_update_nrow]
              exact hb.2.1
            constructor
            · exact hb.2.2.1
            · rw [grid_update_ncol]
              exact hb.2.2.2)
          (grid_update_wf g p.row p.col _ hwf)
      · exact ih g out k' (by simpa using hk) hIP hb hwf

end Nuggets

namespace Nuggets

theorem quitRestoreLoop_out_mono (raw : Grid) (a : Nat) (ps : List Player) :
    ∀ (g : Grid) (out : List (Nat × SMsg)),
      ∃ rest, (quitRestoreLoop raw a ps g out).2 = out ++ rest := by
  induction ps with
  | nil => exact fun g out => ⟨[], by simp [quitRestoreLoop]⟩
  | cons p t ih =>
    intro g out
    unfold quitRestoreLoop
    split
    · obtain ⟨rest, hrest⟩ := ih (grid_update g p.row p.col (grid_getchar raw p.row p.col))
        (out ++ [(a, SMsg.quitMsg "QUIT Thanks for playing!")])
      exact ⟨(a, SMsg.quitMsg "QUIT Thanks for playing!") :: rest, by simp [hrest]⟩
    · exact ih g out

theorem quitRestoreLoop_sends (raw : Grid) (a : Nat) (ps : List Player) :
    ∀ (g : Grid) (out : List (Nat × SMsg)) (k : Nat),
      k < ps.length → (ps.getD k default).IP = a →
      (a, SMsg.quitMsg "QUIT Thanks for playing!") ∈ (quitRestoreLoop raw a ps g out).2 := by
  induction ps with
  | nil =>
    intro g out k hk
    exact absurd hk (by simp)
  | cons p t ih =>
    intro g out k hk hIP
    cases k with
    | zero =>
      have hp : p.IP = a := hIP
      unfold quitRestoreLoop
      rw [if_pos hp]
      obtain ⟨rest, hrest⟩ := quitRestoreLoop_out_mono raw a t
        (grid_update g p.row p.col (grid_getchar raw p.row p.col))
        (out ++ [(a, SMsg.quitMsg "QUIT Thanks for playing!")])
      rw [hrest]
      simp
    | succ k' =>
      unfold quitRestoreLoop
      split
      · exact ih _ _ k' (by simpa using hk) hIP
      · exact ih g out k' (by simpa using hk) hIP

theorem uac_out_mono (st : GameState) :
    ∃ rest, (server_update_all_clients st).outbox = st.outbox ++ rest := by
  unfold server_update_all_clients
  cases hs : st.spectatorIP with
  | none => exact ⟨_, rfl⟩
  | some sp =>
    refine ⟨[(sp, SMsg.gold 0 0 st.goldLeft),
      (sp, SMsg.display (grid_toString st.masterGrid))]
        ++ (updatePlayersLoop st.masterGrid st.rawGrid st.goldLeft st.players).2, ?_⟩
    simp [send]

theorem lastMatchIdx_isSome (ps : List Player) (a : Nat) (k : Nat) (hk : k < ps.length)
    (hIP : (ps.getD k default).IP = a) : ∃ j, lastMatchIdx ps a = some j := by
  unfold lastMatchIdx
  suffices H : ∀ (l : List Nat) (acc : Option Nat), (k ∈ l ∨ ∃ j, acc = some j) →
      ∃ j, l.foldl (fun acc i => if (ps.getD i default).IP = a then some i else acc) acc
        = some j by
    exact H (List.range ps.length) none (Or.inl (List.mem_range.mpr hk))
  intro l
  induction l with
  | nil =>
    rintro acc (hmem | hj)
    · exact absurd hmem (by simp)
    · exact hj
  | cons x t ih =>
    rintro acc (hmem | ⟨j, hj⟩)
    · rcases List.mem_cons.mp hmem with hx | ht
      · subst hx
        refine ih _ (Or.inr ⟨k, ?_⟩)
        show (if (ps.getD k default).IP = a then some k else acc) = some k
        rw [if_pos hIP]
      · exact ih _ (Or.inl ht)
    · refine ih _ (Or.inr ?_)
      by_cases hx : (ps.getD x default).IP = a
      · refine ⟨x, ?_⟩
        show (if (ps.getD x default).IP = a then some x else acc) = some x
        rw [if_pos hx]
      · refine ⟨j, ?_⟩
        show (if (ps.getD x default).IP = a then some x else acc) = some j
        rw [if_neg hx]
        exact hj

end Nuggets

namespace Nuggets

/-- C7 (amended): only the uppercase Q key quits.  For a seated player, KEY
Q sends the quit reply, restores the player's master tile to its raw value,
and the handler returns false so the game continues; KEY q is handled by
the default branch and merely sends the unknown-keystroke error. -/
theorem uppercase_Q_quits (st : GameState) (a : Nat) (i : Nat)
    (hi : i < st.players.length)
    (hIP : (st.players.getD i default).IP = a)
    (hwf : gridWF st.masterGrid)
    (hpos : posInBounds st.masterGrid (st.players.getD i default)) :
    grid_getchar (handleKEY st a 'Q').1.masterGrid
        (st.players.getD i default).row (st.players.getD i default).col
      = grid_getchar st.rawGrid
        (st.players.getD i default).row (st.players.getD i default).col
    ∧ (a, SMsg.quitMsg "QUIT Thanks for playing!") ∈ (handleKEY st a 'Q').1.outbox
    ∧ (handleKEY st a 'Q').2 = false
    ∧ (handleKEY st a 'q').1 = send st a (SMsg.error "ERROR Unknown Keystroke: q") := by
  have hq1 : (handleKEY st a 'Q').1 = (handleQUIT st a).1 := by
    unfold handleKEY
    rw [if_pos (rfl : ('Q' : Char) = 'Q')]
  have hq2 : (handleKEY st a 'Q').2 = false := by
    unfold handleKEY
    rw [if_pos (rfl : ('Q' : Char) = 'Q')]
  refine ⟨?_, ?_, hq2, ?_⟩
  · rw [hq1]
    unfold handleQUIT
    by_cases hs : st.spectatorIP = some a
    · rw [if_pos hs]
      simp only
      rw [uac_masterGrid]
      show grid_getchar (quitRestoreLoop st.rawGrid a st.players st.masterGrid []).1 _ _ = _
      exact quitRestoreLoop_restores st.rawGrid a st.players st.masterGrid [] i hi hIP
        hpos hwf.1
    · rw [if_neg hs]
      simp only
      rw [uac_masterGrid]
      show grid_getchar (quitRestoreLoop st.rawGrid a st.players st.masterGrid []).1 _ _ = _
      exact quitRestoreLoop_restores st.rawGrid a st.players st.masterGrid [] i hi hIP
        hpos hwf.1
  · rw [hq1]
    unfold handleQUIT
    by_cases hs : st.spectatorIP = some a
    · rw [if_pos hs]
      simp only
      obtain ⟨rest, hrest⟩ := uac_out_mono
        { send st a (SMsg.quitMsg "QUIT Thanks for watching!") with
          masterGrid := (quitRestoreLoop
            (send st a (SMsg.quitMsg "QUIT Thanks for watching!")).rawGrid a
            (send st a (SMsg.quitMsg "QUIT Thanks for watching!")).players
            (send st a (SMsg.quitMsg "QUIT Thanks for watching!")).masterGrid []).1
          outbox := (send st a (SMsg.quitMsg "QUIT Thanks for watching!")).outbox
            ++ (quitRestoreLoop
              (send st a (SMsg.quitMsg "QUIT Thanks for watching!")).rawGrid a
              (send st a (SMsg.quitMsg "QUIT Thanks for watching!")).players
              (send st a (SMsg.quitMsg "QUIT Thanks for watching!")).masterGrid []).2 }
      rw [hrest]
      have hmem : (a, SMsg.quitMsg "QUIT Thanks for playing!")
          ∈ (quitRestoreLoop st.rawGrid a st.players st.masterGrid []).2 :=
        quitRestoreLoop_sends st.rawGrid a st.players st.masterGrid [] i hi hIP
      simp only [List.mem_append]
      left
      right
      exact hmem
    · rw [if_neg hs]
      simp only
      obtain ⟨rest, hrest⟩ := uac_out_mono
        { st with
          masterGrid := (quitRestoreLoop st.rawGrid a st.players st.masterGrid []).1
          outbox := st.outbox
            ++ (quitRestoreLoop st.rawGrid a st.players st.masterGrid []).2 }
      rw [hrest]
      have hmem : (a, SMsg.quitMsg "QUIT Thanks for playing!")
          ∈ (quitRestoreLoop st.rawGrid a st.players st.masterGrid []).2 :=
        quitRestoreLoop_sends st.rawGrid a st.players st.masterGrid [] i hi hIP
      simp only [List.mem_append]
      left
      right
      exact hmem
  · obtain ⟨j, hj⟩ := lastMatchIdx_isSome st.players a i hi hIP
    have hjIP := (lastMatchIdx_spec st.players a j hj).2
    unfold handleKEY
    rw [if_neg (by decide : ¬('q' : Char) = 'Q'), hj]
    simp only
    unfold keyDispatch
    rw [if_neg (by decide : ¬('q' : Char) = 'h'), if_neg (by decide : ¬('q' : Char) = 'H'),
      if_neg (by decide : ¬('q' : Char) = 'l'), if_neg (by decide : ¬('q' : Char) = 'L'),
      if_neg (by decide : ¬('q' : Char) = 'j'), if_neg (by decide : ¬('q' : Char) = 'J'),
      if_neg (by decide : ¬('q' : Char) = 'k'), if_neg (by decide : ¬('q' : Char) = 'K'),
      if_neg (by decide : ¬('q' : Char) = 'y'), if_neg (by decide : ¬('q' : Char) = 'Y'),
      if_neg (by decide : ¬('q' : Char) = 'u'), if_neg (by decide : ¬('q' : Char) = 'U'),
      if_neg (by decide : ¬('q' : Char) = 'b'), if_neg (by decide : ¬('q' : Char) = 'B'),
      if_neg (by decide : ¬('q' : Char) = 'n'), if_neg (by decide : ¬('q' : Char) = 'N'),
      hjIP]
    rw [show String.push "ERROR Unknown Keystroke: " 'q' = "ERROR Unknown Keystroke: q"
      from rfl]

/-- Witness for the amended C7 at a concrete seated player. -/
theorem uppercase_Q_quits_witness :
    0 < stQ.players.length
      ∧ (stQ.players.getD 0 default).IP = 1
      ∧ gridWF stQ.masterGrid
      ∧ posInBounds stQ.masterGrid (stQ.players.getD 0 default)
      ∧ (grid_getchar (handleKEY stQ 1 'Q').1.masterGrid
            (stQ.players.getD 0 default).row (stQ.players.getD 0 default).col
          = grid_getchar stQ.rawGrid
            (stQ.players.getD 0 default).row (stQ.players.getD 0 default).col
        ∧ (1, SMsg.quitMsg "QUIT Thanks for playing!") ∈ (handleKEY stQ 1 'Q').1.outbox
        ∧ (handleKEY stQ 1 'Q').2 = false
        ∧ (handleKEY stQ 1 'q').1 = send stQ 1 (SMsg.error "ERROR Unknown Keystroke: q")) :=
  ⟨by decide, by decide, by decide, by decide,
    uppercase_Q_quits stQ 1 0 (by decide) (by decide) (by decide) (by decide)⟩

end Nuggets

namespace Nuggets

/-! ## Claim C4: shared positions -/

theorem grid_update_gridWF (g : Grid) (r c : Int) (ch : Char) (h : gridWF g) :
    gridWF (grid_update g r c ch) := by
  obtain ⟨h1, h2, h3⟩ := h
  refine ⟨?_, ?_, ?_⟩
  · rw [grid_update_cells_length, grid_update_nrow, grid_update_ncol]
    exact h1
  · rw [grid_update_nrow]
    exact h2
  · rw [grid_update_ncol]
    exact h3

theorem listGetD_append_left {α : Type} (l l' : List α) (k : Nat) (d : α)
    (h : k < l.length) : ((l ++ l').getD k d) = l.getD k d := by
  rw [List.getD_eq_getElem?_getD, List.getD_eq_getElem?_getD, List.getElem?_append,
    if_pos h]

theorem listGetD_append_self {α : Type} (l : List α) (x : α) (d : α) :
    ((l ++ [x]).getD l.length d) = x := by
  rw [List.getD_eq_getElem?_getD, List.getElem?_concat_length]
  rfl

theorem grid_isEmptyRoomSpot_inBounds (g : Grid) (r c : Int)
    (h : grid_isEmptyRoomSpot g r c = true) : grid_inBounds g r c := by
  by_contra hc
  unfold grid_isEmptyRoomSpot at h
  rw [grid_getchar_oob g r c hc] at h
  exact absurd h (by decide)

theorem cIsAlpha_ne_dot {ch : Char} (h : cIsAlpha ch = true) : ch ≠ '.' := by
  intro heq
  subst heq
  exact absurd h (by decide)

theorem grid_isPlayer_of_alpha {g : Grid} {r c : Int}
    (h : cIsAlpha (grid_getchar g r c) = true) : grid_isPlayer g r c = true := by
  unfold grid_isPlayer
  rw [h]
  rfl

theorem alpha_of_lt26 : ∀ m, m < 26 → cIsAlpha (Char.ofNat (65 + m)) = true := by decide

theorem findIdx?_some_prop {α : Type} [Inhabited α] {p : α → Bool} {l : List α} {j : Nat}
    (h : l.findIdx? p = some j) : p (l.getD j default) = true := by
  rw [List.findIdx?_eq_some_iff_findIdx_eq] at h
  obtain ⟨hlt, hidx⟩ := h
  rw [List.getD_eq_getElem l default hlt]
  subst hidx
  exact List.findIdx_getElem

theorem TableInv_congr (st st' : GameState)
    (hlen : st'.players.length = st.players.length)
    (hproj : ∀ k, k < st.players.length →
      (st'.players.getD k default).aliasLetter = (st.players.getD k default).aliasLetter
        ∧ (st'.players.getD k default).row = (st.players.getD k default).row
        ∧ (st'.players.getD k default).col = (st.players.getD k default).col)
    (hmg : st'.masterGrid = st.masterGrid)
    (h : TableInv st) : TableInv st' := by
  obtain ⟨h1, h2, h3, h4, h5, h6⟩ := h
  refine ⟨by rw [hlen]; exact h1, by rw [hmg]; exact h2, ?_, ?_, ?_, ?_⟩
  · intro k hk
    rw [hlen] at hk
    rw [(hproj k hk).1]
    exact h3 k hk
  · intro k hk
    rw [hlen] at hk
    rw [hmg, posInBounds_iff, (hproj k hk).2.1, (hproj k hk).2.2]
    exact h4 k hk
  · intro k hk
    rw [hlen] at hk
    rw [hmg, (hproj k hk).1, (hproj k hk).2.1, (hproj k hk).2.2]
    exact h5 k hk
  · intro k l hk hl hkl
    rw [hlen] at hk hl
    rw [(hproj k hk).2.1, (hproj k hk).2.2, (hproj l hl).2.1, (hproj l hl).2.2]
    exact h6 k l hk hl hkl

theorem uac_TableInv (st : GameState) (h : TableInv st) :
    TableInv (server_update_all_clients st) := by
  refine TableInv_congr st _ ?_ ?_ (uac_masterGrid st) h
  · rw [uac_players]
    simp
  · intro k hk
    rw [uac_players, listGetD_map _ _ _ _ default hk]
    exact ⟨rfl, rfl, rfl⟩

theorem pickup_TableInv (st : GameState) (i : Nat) (h : TableInv st) :
    TableInv (pickup_gold st i) := by
  refine TableInv_congr st _ ?_ ?_ (pickup_masterGrid st i) h
  · rw [pickup_players]
    simp
  · intro k hk
    rw [pickup_players]
    by_cases hki : k = i
    · subst hki
      rw [listGetD_set_self _ _ _ _ hk]
      exact ⟨rfl, rfl, rfl⟩
    · rw [listGetD_set_ne _ _ _ (fun hh => hki hh.symm)]
      exact ⟨rfl, rfl, rfl⟩

end Nuggets

namespace Nuggets

theorem grid_inBounds_of_dims (g g' : Grid) (r c : Int) (h1 : g'.nrow = g.nrow)
    (h2 : g'.ncol = g.ncol) (h : grid_inBounds g r c) : grid_inBounds g' r c := by
  unfold grid_inBounds at h ⊢
  rw [h1, h2]
  exact h

theorem pm_step_TableInv (st : GameState) (i : Nat) (nr nc : Int)
    (hi : i < st.players.length)
    (hmv : grid_canMoveTo st.masterGrid nr nc = true)
    (hnp : grid_isPlayer st.masterGrid nr nc = false)
    (h : TableInv st) : TableInv (pm_step st i nr nc) := by
  obtain ⟨h1, h2, h3, h4, h5, h6⟩ := h
  have hb : grid_inBounds st.masterGrid nr nc := grid_canMoveTo_inBounds _ _ _ hmv
  have hnotat : ∀ k, k < st.players.length →
      ¬((st.players.getD k default).row = nr ∧ (st.players.getD k default).col = nc) := by
    intro k hk hcontra
    have hch := h5 k hk
    rw [hcontra.1, hcontra.2] at hch
    have halpha : cIsAlpha (grid_getchar st.masterGrid nr nc) = true := by
      rw [hch]
      exact h3 k hk
    rw [grid_isPlayer_of_alpha halpha] at hnp
    exact absurd hnp (by decide)
  unfold pm_step
  simp only
  have hwf1 : gridWF (grid_update st.masterGrid (st.players.getD i default).row
      (st.players.getD i default).col
      (grid_getchar st.rawGrid (st.players.getD i default).row
        (st.players.getD i default).col)) :=
    grid_update_gridWF _ _ _ _ h2
  refine ⟨?_, ?_, ?_, ?_, ?_, ?_⟩
  · simpa using h1
  · exact grid_update_gridWF _ _ _ _ hwf1
  · intro k hk
    simp only [List.length_set] at hk
    by_cases hki : k = i
    · subst hki
      rw [listGetD_set_self _ _ _ _ hk]
      exact h3 k hk
    · rw [listGetD_set_ne _ _ _ (fun hh => hki hh.symm)]
      exact h3 k hk
  · intro k hk
    simp only [List.length_set] at hk
    refine posInBounds_of_dims st.masterGrid _ _
      (by simp [grid_update_nrow]) (by simp [grid_update_ncol]) ?_
    by_cases hki : k = i
    · subst hki
      rw [listGetD_set_self _ _ _ _ hk]
      exact hb
    · rw [listGetD_set_ne _ _ _ (fun hh => hki hh.symm)]
      exact h4 k hk
  · intro k hk
    simp only [List.length_set] at hk
    by_cases hki : k = i
    · subst hki
      rw [listGetD_set_self _ _ _ _ hk]
      show grid_getchar _ nr nc = (st.players.getD k default).aliasLetter
      rw [grid_getchar_update_self _ nr nc _
        (by rw [grid_update_cells_length, grid_update_nrow, grid_update_ncol]; exact h2.1)
        (grid_inBounds_of_dims st.masterGrid _ nr nc (grid_update_nrow _ _ _ _)
          (grid_update_ncol _ _ _ _) hb)]
    · rw [listGetD_set_ne _ _ _ (fun hh => hki hh.symm)]
      rw [grid_getchar_update_ne _ _ (hnotat k hk)]
      rw [grid_getchar_update_ne _ _ (fun hcontra => by
        have := h6 k i hk hi hki
        rw [hcontra.1, hcontra.2] at this
        rcases this with hh | hh <;> exact hh rfl)]
      exact h5 k hk
  · intro k l hk hl hkl
    simp only [List.length_set] at hk hl
    by_cases hki : k = i
    · subst hki
      rw [listGetD_set_self _ _ _ _ hk,
        listGetD_set_ne _ _ _ (fun hh => hkl hh)]
      have := hnotat l hl
      by_cases hrow : (st.players.getD l default).row = nr
      · right
        intro hcol
        exact this ⟨hrow, hcol.symm⟩
      · left
        intro hrr
        exact hrow hrr.symm
    · by_cases hli : l = i
      · subst hli
        rw [listGetD_set_self _ _ _ _ hl,
          listGetD_set_ne _ _ _ (fun hh => hki hh.symm)]
        have := hnotat k hk
        by_cases hrow : (st.players.getD k default).row = nr
        · right
          intro hcol
          exact this ⟨hrow, hcol⟩
        · left
          exact hrow
      · rw [listGetD_set_ne _ _ _ (fun hh => hki hh.symm),
          listGetD_set_ne _ _ _ (fun hh => hli hh.symm)]
        exact h6 k l hk hl hkl

end Nuggets

namespace Nuggets

theorem pm_swap_TableInv (st : GameState) (i j : Nat) (nr nc : Int)
    (hi : i < st.players.length) (hj : j < st.players.length)
    (hmv : grid_canMoveTo st.masterGrid nr nc = true)
    (hjpos : (st.players.getD j default).row = nr ∧ (st.players.getD j default).col = nc)
    (h : TableInv st) : TableInv (pm_swap st i j nr nc) := by
  obtain ⟨h1, h2, h3, h4, h5, h6⟩ := h
  have hb : grid_inBounds st.masterGrid nr nc := grid_canMoveTo_inBounds _ _ _ hmv
  unfold pm_swap
  simp only
  apply uac_TableInv
  set p := st.players.getD i default with hp
  set q := st.players.getD j default with hq
  set qmod : Player := { q with row := p.row, col := p.col } with hqmod
  set ps1 := st.players.set j qmod with hps1
  have hlen1 : ps1.length = st.players.length := by rw [hps1]; simp
  have hi1 : i < ps1.length := by rw [hlen1]; exact hi
  set pi1 := ps1.getD i default with hpi1
  set imod : Player := { pi1 with row := nr, col := nc } with himod
  set ps2 := ps1.set i imod with hps2
  set g1 := grid_update st.masterGrid p.row p.col q.aliasLetter with hg1
  set g2 := grid_update g1 nr nc pi1.aliasLetter with hg2
  have hlen2 : ps2.length = st.players.length := by rw [hps2]; simp [hlen1]
  have hpialias : pi1.aliasLetter = p.aliasLetter := by
    by_cases hij : i = j
    · subst hij
      rw [hpi1, hps1, listGetD_set_self _ _ _ _ hj]
    · rw [hpi1, hps1, listGetD_set_ne _ _ _ (fun hh => hij hh.symm), ← hp]
  have hgi : ps2.getD i default = imod := by
    rw [hps2]
    exact listGetD_set_self _ _ _ _ hi1
  have hgj : j ≠ i → ps2.getD j default = qmod := by
    intro hji
    rw [hps2, listGetD_set_ne _ _ _ (fun hh => hji hh.symm), hps1,
      listGetD_set_self _ _ _ _ hj]
  have hgk : ∀ k, k ≠ i → k ≠ j → ps2.getD k default = st.players.getD k default := by
    intro k hki hkj
    rw [hps2, listGetD_set_ne _ _ _ (fun hh => hki hh.symm), hps1,
      listGetD_set_ne _ _ _ (fun hh => hkj hh.symm)]
  have hpos2 : ∀ k, k < st.players.length →
      (ps2.getD k default).row
          = (st.players.getD (if k = i then j else if k = j then i else k) default).row
        ∧ (ps2.getD k default).col
          = (st.players.getD (if k = i then j else if k = j then i else k) default).col := by
    intro k hk
    by_cases hk1 : k = i
    · subst hk1
      rw [if_pos rfl, hgi, himod]
      exact ⟨hjpos.1.symm, hjpos.2.symm⟩
    · rw [if_neg hk1]
      by_cases hk2 : k = j
      · subst hk2
        rw [if_pos rfl, hgj (fun hh => hk1 hh), hqmod, ← hp]
        exact ⟨rfl, rfl⟩
      · rw [if_neg hk2, hgk k hk1 hk2]
        exact ⟨rfl, rfl⟩
  have halias2 : ∀ k, k < st.players.length →
      (ps2.getD k default).aliasLetter = (st.players.getD k default).aliasLetter := by
    intro k hk
    by_cases hk1 : k = i
    · subst hk1
      rw [hgi, himod]
      show pi1.aliasLetter = _
      rw [hpialias, hp]
    · by_cases hk2 : k = j
      · subst hk2
        rw [hgj (fun hh => hk1 hh), hqmod, ← hq]
      · rw [hgk k hk1 hk2]
  have hfidx : ∀ k, k < st.players.length →
      (if k = i then j else if k = j then i else k) < st.players.length := by
    intro k hk
    by_cases hk1 : k = i
    · rw [if_pos hk1]
      exact hj
    · rw [if_neg hk1]
      by_cases hk2 : k = j
      · rw [if_pos hk2]
        exact hi
      · rw [if_neg hk2]
        exact hk
  have hwf1 : gridWF g1 := by
    rw [hg1]
    exact grid_update_gridWF _ _ _ _ h2
  refine ⟨?_, ?_, ?_, ?_, ?_, ?_⟩
  · show ps2.length ≤ MaxPlayers
    rw [hlen2]
    exact h1
  · show gridWF g2
    rw [hg2]
    exact grid_update_gridWF _ _ _ _ hwf1
  · intro k hk
    rw [show ({ st with players := ps2, masterGrid := g2 } : GameState).players = ps2
      from rfl] at hk ⊢
    rw [hlen2] at hk
    rw [halias2 k hk]
    exact h3 k hk
  · intro k hk
    rw [show ({ st with players := ps2, masterGrid := g2 } : GameState).players = ps2
      from rfl] at hk ⊢
    rw [hlen2] at hk
    refine posInBounds_of_dims st.masterGrid _ _ ?_ ?_ ?_
    · rw [hg2, hg1, grid_update_nrow, grid_update_nrow]
    · rw [hg2, hg1, grid_update_ncol, grid_update_ncol]
    · rw [posInBounds_iff, (hpos2 k hk).1, (hpos2 k hk).2, ← posInBounds_iff]
      exact h4 _ (hfidx k hk)
  · intro k hk
    rw [show ({ st with players := ps2, masterGrid := g2 } : GameState).players = ps2
      from rfl] at hk ⊢
    rw [hlen2] at hk
    show grid_getchar g2 (ps2.getD k default).row (ps2.getD k default).col
      = (ps2.getD k default).aliasLetter
    by_cases hk1 : k = i
    · subst hk1
      rw [hgi, himod]
      show grid_getchar g2 nr nc = pi1.aliasLetter
      rw [hg2]
      exact grid_getchar_update_self g1 nr nc _ hwf1.1
        (grid_inBounds_of_dims st.masterGrid g1 nr nc
          (by rw [hg1, grid_update_nrow]) (by rw [hg1, grid_update_ncol]) hb)
    · by_cases hk2 : k = j
      · subst hk2
        have hji : ¬k = i := hk1
        rw [hgj hji, hqmod]
        show grid_getchar g2 p.row p.col = q.aliasLetter
        have hne : ¬(p.row = nr ∧ p.col = nc) := by
          intro hcontra
          rcases h6 i k hi hj (fun hh => hji hh.symm) with hd | hd
          · exact hd (by rw [← hp, hcontra.1, ← hjpos.1, hq])
          · exact hd (by rw [← hp, hcontra.2, ← hjpos.2, hq])
        rw [hg2, grid_getchar_update_ne g1 _ hne, hg1]
        exact grid_getchar_update_self st.masterGrid p.row p.col _ h2.1
          (by rw [hp]; exact h4 i hi)
      · rw [hgk k hk1 hk2]
        have hne2 : ¬((st.players.getD k default).row = nr
            ∧ (st.players.getD k default).col = nc) := by
          intro hcontra
          rcases h6 k j hk hj hk2 with hd | hd
          · exact hd (by rw [hcontra.1, ← hjpos.1, hq])
          · exact hd (by rw [hcontra.2, ← hjpos.2, hq])
        have hne1 : ¬((st.players.getD k default).row = p.row
            ∧ (st.players.getD k default).col = p.col) := by
          intro hcontra
          rcases h6 k i hk hi hk1 with hd | hd
          · exact hd (by rw [hcontra.1, hp])
          · exact hd (by rw [hcontra.2, hp])
        rw [hg2, grid_getchar_update_ne g1 _ hne2, hg1,
          grid_getchar_update_ne st.masterGrid _ hne1]
        exact h5 k hk
  · intro k l hk hl hkl
    rw [show ({ st with players := ps2, masterGrid := g2 } : GameState).players = ps2
      from rfl] at hk hl ⊢
    rw [hlen2] at hk hl
    rw [(hpos2 k hk).1, (hpos2 k hk).2, (hpos2 l hl).1, (hpos2 l hl).2]
    refine h6 _ _ (hfidx k hk) (hfidx l hl) ?_
    by_cases hk1 : k = i
    · rw [if_pos hk1]
      by_cases hl1 : l = i
      · exact absurd (hk1.trans hl1.symm) hkl
      · rw [if_neg hl1]
        by_cases hl2 : l = j
        · rw [if_pos hl2]
          omega
        · rw [if_neg hl2]
          omega
    · rw [if_neg hk1]
      by_cases hk2 : k = j
      · rw [if_pos hk2]
        by_cases hl1 : l = i
        · rw [if_pos hl1]
          omega
        · rw [if_neg hl1]
          by_cases hl2 : l = j
          · rw [if_pos hl2]
            omega
          · rw [if_neg hl2]
            omega
      · rw [if_neg hk2]
        by_cases hl1 : l = i
        · rw [if_pos hl1]
          omega
        · rw [if_neg hl1]
          by_cases hl2 : l = j
          · rw [if_pos hl2]
            omega
          · rw [if_neg hl2]
            omega

end Nuggets

namespace Nuggets

theorem player_move_TableInv (st : GameState) (i : Nat) (nr nc : Int)
    (hi : i < st.players.length) (h : TableInv st) :
    TableInv (player_move st i nr nc).1 := by
  unfold player_move
  split
  · next hmv =>
    split
    · split
      · next j hfind =>
        have hj : j < st.players.length := findIdx?_some_lt hfind
        have hprop := findIdx?_some_prop hfind
        have hjpos : (st.players.getD j default).row = nr
            ∧ (st.players.getD j default).col = nc := by
          simpa [Bool.and_eq_true, beq_iff_eq] using hprop
        exact pm_swap_TableInv st i j nr nc hi hj hmv hjpos h
      · exact h
    · next hip =>
      have hip' : grid_isPlayer st.masterGrid nr nc = false := by
        simpa using hip
      split
      · exact uac_TableInv _ (pickup_TableInv _ i (pm_step_TableInv st i nr nc hi hmv hip' h))
      · exact uac_TableInv _ (pm_step_TableInv st i nr nc hi hmv hip' h)
  · exact h

theorem moveLoop_TableInv (i : Nat) (dr dc : Int) (fuel : Nat) :
    ∀ (st : GameState) (row col : Int), i < st.players.length → TableInv st →
      TableInv (moveLoop i dr dc fuel st row col).1 := by
  induction fuel with
  | zero => exact fun st row col _ h => h
  | succ n ih =>
    intro st row col hi h
    simp only [moveLoop]
    by_cases hr : (player_move st i (row + dr) (col + dc)).2 = true
    · rw [if_pos hr]
      exact player_move_TableInv st i _ _ hi h
    · rw [if_neg hr]
      have hi' : i < (player_move st i (row + dr) (col + dc)).1.players.length := by
        rw [(player_move_sums st i (row + dr) (col + dc) hi).2.2]
        exact hi
      exact ih (player_move st i (row + dr) (col + dc)).1 (row + dr) (col + dc) hi'
        (player_move_TableInv st i _ _ hi h)

theorem send_TableInv (st : GameState) (a : Nat) (m : SMsg) (h : TableInv st) :
    TableInv (send st a m) :=
  TableInv_congr st _ rfl (fun _ _ => ⟨rfl, rfl, rfl⟩) rfl h

end Nuggets

namespace Nuggets

theorem keyDispatch_TableInv (st : GameState) (i : Nat) (row col : Int) (pIP : Nat)
    (c : Char) (hi : i < st.players.length) (h : TableInv st) :
    TableInv (keyDispatch st i row col pIP c) := by
  unfold keyDispatch
  by_cases hk0 : c = 'h'
  · rw [if_pos hk0]
    exact player_move_TableInv st i _ _ hi h
  rw [if_neg hk0]
  by_cases hk1 : c = 'H'
  · rw [if_pos hk1]
    exact moveLoop_TableInv i 0 (-1) (runFuel st) st row col hi h
  rw [if_neg hk1]
  by_cases hk2 : c = 'l'
  · rw [if_pos hk2]
    exact player_move_TableInv st i _ _ hi h
  rw [if_neg hk2]
  by_cases hk3 : c = 'L'
  · rw [if_pos hk3]
    exact moveLoop_TableInv i 0 1 (runFuel st) st row col hi h
  rw [if_neg hk3]
  by_cases hk4 : c = 'j'
  · rw [if_pos hk4]
    exact player_move_TableInv st i _ _ hi h
  rw [if_neg hk4]
  by_cases hk5 : c = 'J'
  · rw [if_pos hk5]
    exact moveLoop_TableInv i 1 0 (runFuel st) st row col hi h
  rw [if_neg hk5]
  by_cases hk6 : c = 'k'
  · rw [if_pos hk6]
    exact player_move_TableInv st i _ _ hi h
  rw [if_neg hk6]
  by_cases hk7 : c = 'K'
  · rw [if_pos hk7]
    exact moveLoop_TableInv i (-1) 0 (runFuel st) st row col hi h
  rw [if_neg hk7]
  by_cases hk8 : c = 'y'
  · rw [if_pos hk8]
    exact player_move_TableInv st i _ _ hi h
  rw [if_neg hk8]
  by_cases hk9 : c = 'Y'
  · rw [if_pos hk9]
    exact moveLoop_TableInv i (-1) (-1) (runFuel st) st row col hi h
  rw [if_neg hk9]
  by_cases hk10 : c = 'u'
  · rw [if_pos hk10]
    exact player_move_TableInv st i _ _ hi h
  rw [if_neg hk10]
  by_cases hk11 : c = 'U'
  · rw [if_pos hk11]
    exact moveLoop_TableInv i (-1) 1 (runFuel st) st row col hi h
  rw [if_neg hk11]
  by_cases hk12 : c = 'b'
  · rw [if_pos hk12]
    exact player_move_TableInv st i _ _ hi h
  rw [if_neg hk12]
  by_cases hk13 : c = 'B'
  · rw [if_pos hk13]
    exact moveLoop_TableInv i 1 (-1) (runFuel st) st row col hi h
  rw [if_neg hk13]
  by_cases hk14 : c = 'n'
  · rw [if_pos hk14]
    exact player_move_TableInv st i _ _ hi h
  rw [if_neg hk14]
  by_cases hk15 : c = 'N'
  · rw [if_pos hk15]
    exact moveLoop_TableInv i 1 1 (runFuel st) st row col hi h
  rw [if_neg hk15]
  exact send_TableInv st pIP _ h

end Nuggets

namespace Nuggets

theorem rejectionLoop_spot (g : Grid) (nr nc : Int) :
    ∀ (n : Nat) (s : List Nat), s.length ≤ n → ∀ (row col r c : Int) (s' : List Nat),
      rejectionLoop g nr nc s row col = some (r, c, s') →
      grid_isEmptyRoomSpot g r c = true := by
  intro n
  induction n with
  | zero =>
    intro s hs row col r c s' h
    have hnil : s = [] := List.eq_nil_of_length_eq_zero (Nat.le_zero.mp hs)
    subst hnil
    unfold rejectionLoop at h
    split at h
    · next hspot =>
      simp only [Option.some.injEq, Prod.mk.injEq] at h
      rw [h.1, h.2.1] at hspot
      exact hspot
    · cases h
  | succ m ih =>
    intro s hs row col r c s' h
    unfold rejectionLoop at h
    split at h
    · next hspot =>
      simp only [Option.some.injEq, Prod.mk.injEq] at h
      rw [h.1, h.2.1] at hspot
      exact hspot
    · cases s with
      | nil => cases h
      | cons x t =>
        cases t with
        | nil => cases h
        | cons y rest =>
          refine ih rest ?_ _ _ _ _ _ h
          simp only [List.length_cons] at hs
          omega

theorem server_drop_player_spot (g : Grid) (nr nc : Int) (s : List Nat)
    (r c : Int) (s' : List Nat)
    (h : server_drop_player g nr nc s = some (r, c, s')) :
    grid_isEmptyRoomSpot g r c = true := by
  unfold server_drop_player at h
  cases s with
  | nil => cases h
  | cons x t =>
    cases t with
    | nil => cases h
    | cons y rest =>
      exact rejectionLoop_spot g nr nc rest.length rest le_rfl _ _ _ _ _ h

end Nuggets

namespace Nuggets

theorem join_TableInv (st : GameState) (newp : Player) (rands' : List Nat)
    (hlt : st.players.length < MaxPlayers)
    (halpha : cIsAlpha newp.aliasLetter = true)
    (hspot : grid_isEmptyRoomSpot st.masterGrid newp.row newp.col = true)
    (h : TableInv st) :
    TableInv { st with
      rands := rands'
      players := st.players ++ [newp]
      masterGrid := grid_update st.masterGrid newp.row newp.col newp.aliasLetter } := by
  obtain ⟨h1, h2, h3, h4, h5, h6⟩ := h
  have hdot : grid_getchar st.masterGrid newp.row newp.col = '.' := by
    unfold grid_isEmptyRoomSpot at hspot
    exact beq_iff_eq.mp hspot
  have hbpos : grid_inBounds st.masterGrid newp.row newp.col :=
    grid_isEmptyRoomSpot_inBounds _ _ _ hspot
  have hne : ∀ k, k < st.players.length →
      ¬((st.players.getD k default).row = newp.row
        ∧ (st.players.getD k default).col = newp.col) := by
    intro k hk hcontra
    have hch := h5 k hk
    rw [hcontra.1, hcontra.2, hdot] at hch
    exact absurd hch.symm (cIsAlpha_ne_dot (h3 k hk))
  refine ⟨?_, ?_, ?_, ?_, ?_, ?_⟩
  · show (st.players ++ [newp]).length ≤ MaxPlayers
    simp only [List.length_append, List.length_cons, List.length_nil]
    omega
  · exact grid_update_gridWF _ _ _ _ h2
  · intro k hk
    simp only [List.length_append, List.length_cons, List.length_nil] at hk
    show cIsAlpha ((st.players ++ [newp]).getD k default).aliasLetter = true
    by_cases hklen : k < st.players.length
    · rw [listGetD_append_left _ _ _ _ hklen]
      exact h3 k hklen
    · have hkeq : k = st.players.length := by omega
      subst hkeq
      rw [listGetD_append_self]
      exact halpha
  · intro k hk
    simp only [List.length_append, List.length_cons, List.length_nil] at hk
    refine posInBounds_of_dims st.masterGrid _ _ (grid_update_nrow _ _ _ _)
      (grid_update_ncol _ _ _ _) ?_
    show posInBounds st.masterGrid ((st.players ++ [newp]).getD k default)
    by_cases hklen : k < st.players.length
    · rw [listGetD_append_left _ _ _ _ hklen]
      exact h4 k hklen
    · have hkeq : k = st.players.length := by omega
      subst hkeq
      rw [listGetD_append_self]
      exact hbpos
  · intro k hk
    simp only [List.length_append, List.length_cons, List.length_nil] at hk
    show grid_getchar (grid_update st.masterGrid newp.row newp.col newp.aliasLetter)
        ((st.players ++ [newp]).getD k default).row
        ((st.players ++ [newp]).getD k default).col
      = ((st.players ++ [newp]).getD k default).aliasLetter
    by_cases hklen : k < st.players.length
    · rw [listGetD_append_left _ _ _ _ hklen]
      rw [grid_getchar_update_ne _ _ (hne k hklen)]
      exact h5 k hklen
    · have hkeq : k = st.players.length := by omega
      subst hkeq
      rw [listGetD_append_self]
      exact grid_getchar_update_self _ _ _ _ h2.1 hbpos
  · intro k l hk hl hkl
    simp only [List.length_append, List.length_cons, List.length_nil] at hk hl
    show ((st.players ++ [newp]).getD k default).row
          ≠ ((st.players ++ [newp]).getD l default).row
      ∨ ((st.players ++ [newp]).getD k default).col
          ≠ ((st.players ++ [newp]).getD l default).col
    by_cases hklen : k < st.players.length
    · by_cases hllen : l < st.players.length
      · rw [listGetD_append_left _ _ _ _ hklen, listGetD_append_left _ _ _ _ hllen]
        exact h6 k l hklen hllen hkl
      · have hleq : l = st.players.length := by omega
        subst hleq
        rw [listGetD_append_left _ _ _ _ hklen, listGetD_append_self]
        have hnk := hne k hklen
        by_cases hrow : (st.players.getD k default).row = newp.row
        · right
          intro hcol
          exact hnk ⟨hrow, hcol⟩
        · left
          exact hrow
    · have hkeq : k = st.players.length := by omega
      subst hkeq
      have hllen : l < st.players.length := by omega
      rw [listGetD_append_self, listGetD_append_left _ _ _ _ hllen]
      have hnl := hne l hllen
      by_cases hrow : (st.players.getD l default).row = newp.row
      · right
        intro hcol
        exact hnl ⟨hrow, hcol.symm⟩
      · left
        intro hrr
        exact hrow hrr.symm

end Nuggets

namespace Nuggets

theorem handlePlay_TableInv (st : GameState) (a : Nat) (name : List Char)
    (h : TableInv st) : TableInv (handlePlay st a name).1 := by
  unfold handlePlay
  split
  · exact send_TableInv st a _ h
  · next hfull =>
    split
    · exact send_TableInv st a _ h
    · have hlt : st.players.length < MaxPlayers := Nat.lt_of_le_of_ne h.1 hfull
      cases hdrop : server_drop_player st.masterGrid st.GridRow st.GridCol st.rands with
      | none => exact h
      | some pos =>
        obtain ⟨row, col, rands'⟩ := pos
        have hspot : grid_isEmptyRoomSpot st.masterGrid row col = true :=
          server_drop_player_spot _ _ _ _ _ _ _ hdrop
        exact uac_TableInv _ (send_TableInv _ a _ (send_TableInv _ a _
          (join_TableInv st
            { IP := a
              realName := storeRealName name
              aliasLetter := Char.ofNat (65 + st.players.length)
              gold := 0
              justCollected := 0
              row := row
              col := col
              seenGrid := grid_new st.GridRow st.GridCol } rands' hlt
            (alpha_of_lt26 _ hlt) hspot h)))

theorem handleSPECTATE_TableInv (st : GameState) (a : Nat) (h : TableInv st) :
    TableInv (handleSPECTATE st a).1 := by
  unfold handleSPECTATE
  cases hs : st.spectatorIP with
  | none =>
    exact uac_TableInv _ (TableInv_congr st _ rfl (fun _ _ => ⟨rfl, rfl, rfl⟩) rfl h)
  | some old =>
    exact uac_TableInv _ (TableInv_congr st _ rfl (fun _ _ => ⟨rfl, rfl, rfl⟩) rfl h)

theorem handleKEY_TableInv (st : GameState) (a : Nat) (c : Char) (hc : c ≠ 'Q')
    (h : TableInv st) : TableInv (handleKEY st a c).1 := by
  unfold handleKEY
  rw [if_neg hc]
  cases hfind : lastMatchIdx st.players a with
  | none => exact h
  | some i =>
    have hi := (lastMatchIdx_spec st.players a i hfind).1
    exact keyDispatch_TableInv st i _ _ _ c hi h

theorem handleMessage_TableInv (st : GameState) (a : Nat) (m : ClientMsg)
    (hq : isQuitMsg m = false) (h : TableInv st) :
    TableInv (handleMessage st a m).1 := by
  cases m with
  | play name => exact handlePlay_TableInv st a name h
  | spectate => exact handleSPECTATE_TableInv st a h
  | key c =>
    have hc : c ≠ 'Q' := by
      intro hceq
      subst hceq
      exact absurd hq (by decide)
    exact handleKEY_TableInv st a c hc h

theorem runMsgs_TableInv (msgs : List (Nat × ClientMsg)) :
    ∀ st : GameState, (∀ m ∈ msgs, isQuitMsg m.2 = false) → TableInv st →
      TableInv (runMsgs st msgs) := by
  induction msgs with
  | nil => exact fun st _ h => h
  | cons x t ih =>
    intro st hq h
    show TableInv (runMsgs (handleMessage st x.1 x.2).1 t)
    exact ih _ (fun m hm => hq m (by simp [hm]))
      (handleMessage_TableInv st x.1 x.2 (hq x (by simp)) h)

end Nuggets

namespace Nuggets

theorem placeGoldLoop_gridWF (nr nc : Int) :
    ∀ (n : Nat) (g : Grid) (s : List Nat), gridWF g →
      gridWF (placeGoldLoop nr nc n g s).1 := by
  intro n
  induction n with
  | zero => exact fun g s h => h
  | succ m ih =>
    intro g s h
    simp only [placeGoldLoop]
    cases hdrop : server_drop_player g nr nc s with
    | none => exact h
    | some pos =>
      obtain ⟨row, col, s'⟩ := pos
      exact ih _ _ (grid_update_gridWF _ _ _ _ h)

theorem server_drop_gold_players (st : GameState) :
    (server_drop_gold st).players = st.players := rfl

theorem server_drop_gold_masterWF (st : GameState) (h : gridWF st.masterGrid) :
    gridWF (server_drop_gold st).masterGrid := by
  exact placeGoldLoop_gridWF st.GridRow st.GridCol _ st.masterGrid _ h

theorem initState_TableInv (map : Grid) (s : List Nat) (hwf : gridWF map) :
    TableInv (initState map s) := by
  have hp : (initState map s).players = [] := server_drop_gold_players _
  refine ⟨?_, ?_, ?_, ?_, ?_, ?_⟩
  · rw [hp]
    exact Nat.zero_le _
  · exact server_drop_gold_masterWF _ hwf
  · intro k hk
    rw [hp] at hk
    exact absurd hk (by simp)
  · intro k hk
    rw [hp] at hk
    exact absurd hk (by simp)
  · intro k hk
    rw [hp] at hk
    exact absurd hk (by simp)
  · intro k l hk _ _
    rw [hp] at hk
    exact absurd hk (by simp)

theorem pairwise_of_indexed {ps : List Player}
    (h : ∀ k l, k < ps.length → l < ps.length → k ≠ l →
      ((ps.getD k default).row ≠ (ps.getD l default).row
        ∨ (ps.getD k default).col ≠ (ps.getD l default).col)) :
    ps.Pairwise (fun p q => p.row ≠ q.row ∨ p.col ≠ q.col) := by
  rw [List.pairwise_iff_getElem]
  intro a b ha hb hab
  have hres := h a b ha hb (by omega)
  rw [List.getD_eq_getElem ps default ha, List.getD_eq_getElem ps default hb] at hres
  exact hres

end Nuggets

namespace Nuggets

/-- Claim C4 (amended): starting from a well-formed loaded map, after the
server processes any sequence of PLAY, SPECTATE, and KEY messages that
contains no KEY Q, no two players recorded in the player table occupy the
same (row, col) position.  (The unamended claim, quantified over all
messages including quits, is refuted by the companion counterexample:
handleQUIT keeps the quitting player in the table while freeing its tile,
so a later join can land on the retained position.) -/
theorem no_shared_positions_without_quit (map : Grid) (s : List Nat)
    (msgs : List (Nat × ClientMsg)) (hwf : gridWF map)
    (hq : ∀ m ∈ msgs, isQuitMsg m.2 = false) :
    positionsDistinct (runMsgs (initState map s) msgs) := by
  have hInv : TableInv (runMsgs (initState map s) msgs) :=
    runMsgs_TableInv msgs _ hq (initState_TableInv map s hwf)
  exact pairwise_of_indexed hInv.2.2.2.2.2

/-- Witness for the amended C4 at a concrete quit-free run. -/
theorem no_shared_positions_without_quit_witness :
    gridWF mapC4 ∧ (∀ m ∈ msgsC4nq, isQuitMsg m.2 = false)
      ∧ positionsDistinct (runMsgs (initState mapC4 streamC4) msgsC4nq) :=
  ⟨by decide, by decide,
    no_shared_positions_without_quit mapC4 streamC4 msgsC4nq (by decide) (by decide)⟩

/-- Claim C4 counterexample: A joins, A quits with KEY Q (handleQUIT keeps
A's table entry), then B joins and is dropped on the tile the quit
restored, so two table entries share a position after a single processed
message. -/
theorem players_share_position_counterexample :
    ¬ positionsDistinct (runMsgs (initState mapC4 streamC4) msgsC4) := by decide

end Nuggets

namespace Nuggets

/-! ## Claim C6: run-mode equivalence -/

theorem grid_isPlayer_inBounds (g : Grid) (r c : Int)
    (h : grid_isPlayer g r c = true) : grid_inBounds g r c := by
  by_contra hc
  unfold grid_isPlayer at h
  rw [grid_getchar_oob g r c hc] at h
  exact absurd h (by decide)

theorem grid_isPlayer_congr {g g' : Grid} {r c r' c' : Int}
    (h : grid_getchar g r c = grid_getchar g' r' c') :
    grid_isPlayer g r c = grid_isPlayer g' r' c' := by
  unfold grid_isPlayer
  rw [h]

theorem cellList_mem (g : Grid) (r c : Int) (h : grid_inBounds g r c) :
    (r, c) ∈ cellList g := by
  unfold cellList
  rw [List.mem_flatMap]
  exact ⟨r, intRange_mem.mpr ⟨h.1, h.2.1⟩,
    List.mem_map.mpr ⟨c, intRange_mem.mpr ⟨h.2.2.1, h.2.2.2⟩, rfl⟩⟩

theorem lettersOwned_of_bool (st : GameState) (h : lettersHaveOwners st = true) :
    lettersOwned st := by
  intro r c hp
  have hb : grid_inBounds st.masterGrid r c := grid_isPlayer_inBounds _ _ _ hp
  have hall := List.all_eq_true.mp h (r, c) (cellList_mem _ _ _ hb)
  rw [hp] at hall
  simp only [Bool.not_true, Bool.false_or] at hall
  obtain ⟨p, hpmem, hpred⟩ := List.any_eq_true.mp hall
  obtain ⟨j, hj, hjeq⟩ := List.mem_iff_getElem.mp hpmem
  have hpred2 : p.row = r ∧ p.col = c := by
    simpa [Bool.and_eq_true, beq_iff_eq] using hpred
  refine ⟨j, hj, ?_, ?_⟩
  · rw [List.getD_eq_getElem st.players default hj, hjeq]
    exact hpred2.1
  · rw [List.getD_eq_getElem st.players default hj, hjeq]
    exact hpred2.2

theorem rawClean_of_bool (st : GameState) (h : rawHasNoPlayers st = true) :
    rawClean st := by
  intro r c
  by_cases hb : grid_inBounds st.rawGrid r c
  · have hall := List.all_eq_true.mp h (r, c) (cellList_mem _ _ _ hb)
    simp only [Bool.not_eq_true'] at hall
    exact hall
  · unfold grid_isPlayer
    rw [grid_getchar_oob _ _ _ hb]
    decide

end Nuggets

namespace Nuggets

theorem uac_getD (st : GameState) (k : Nat) (hk : k < st.players.length) :
    ((server_update_all_clients st).players.getD k default).row
        = (st.players.getD k default).row
      ∧ ((server_update_all_clients st).players.getD k default).col
        = (st.players.getD k default).col := by
  rw [uac_players, listGetD_map _ _ _ _ default hk]
  exact ⟨rfl, rfl⟩

theorem pickup_getD (st : GameState) (i k : Nat) (hk : k < st.players.length) :
    ((pickup_gold st i).players.getD k default).row = (st.players.getD k default).row
      ∧ ((pickup_gold st i).players.getD k default).col
        = (st.players.getD k default).col := by
  rw [pickup_players]
  by_cases hki : k = i
  · subst hki
    rw [listGetD_set_self _ _ _ _ hk]
    exact ⟨rfl, rfl⟩
  · rw [listGetD_set_ne _ _ _ (fun hh => hki hh.symm)]
    exact ⟨rfl, rfl⟩

theorem pm_step_getD_self (st : GameState) (i : Nat) (nr nc : Int)
    (hi : i < st.players.length) :
    ((pm_step st i nr nc).players.getD i default).row = nr
      ∧ ((pm_step st i nr nc).players.getD i default).col = nc := by
  show ((st.players.set i
      { st.players.getD i default with row := nr, col := nc }).getD i default).row = nr
    ∧ ((st.players.set i
      { st.players.getD i default with row := nr, col := nc }).getD i default).col = nc
  rw [listGetD_set_self _ _ _ _ hi]
  exact ⟨rfl, rfl⟩

theorem pm_swap_getD_self (st : GameState) (i j : Nat) (nr nc : Int)
    (hi : i < st.players.length) :
    ((pm_swap st i j nr nc).players.getD i default).row = nr
      ∧ ((pm_swap st i j nr nc).players.getD i default).col = nc := by
  unfold pm_swap
  simp only
  set q := st.players.getD j default with hq
  set p := st.players.getD i default with hp
  set qmod : Player := { q with row := p.row, col := p.col } with hqmod
  set ps1 := st.players.set j qmod with hps1
  set pi1 := ps1.getD i default with hpi1
  set imod : Player := { pi1 with row := nr, col := nc } with himod
  set ps2 := ps1.set i imod with hps2
  set g1 := grid_update st.masterGrid p.row p.col q.aliasLetter with hg1
  set g2 := grid_update g1 nr nc pi1.aliasLetter with hg2
  have hi1 : i < ps1.length := by
    rw [hps1]
    simpa using hi
  have hi2 : i < ({ st with players := ps2, masterGrid := g2 } : GameState).players.length := by
    rw [show ({ st with players := ps2, masterGrid := g2 } : GameState).players = ps2 from rfl,
      hps2]
    simpa using hi1
  rw [uac_players, listGetD_map _ _ _ _ default hi2,
    show ({ st with players := ps2, masterGrid := g2 } : GameState).players = ps2 from rfl,
    hps2, listGetD_set_self _ _ _ _ hi1]
  exact ⟨rfl, rfl⟩

theorem player_move_rawGrid (st : GameState) (i : Nat) (nr nc : Int) :
    (player_move st i nr nc).1.rawGrid = st.rawGrid := by
  unfold player_move
  split
  · split
    · split
      · show (pm_swap _ _ _ _ _).rawGrid = _
        unfold pm_swap
        simp only
        rw [uac_rawGrid]
      · rfl
    · split
      · show (server_update_all_clients _).rawGrid = _
        rw [uac_rawGrid, pickup_rawGrid]
        rfl
      · show (server_update_all_clients _).rawGrid = _
        rw [uac_rawGrid]
        rfl
  · rfl

theorem player_move_rawClean (st : GameState) (i : Nat) (nr nc : Int)
    (h : rawClean st) : rawClean (player_move st i nr nc).1 := by
  intro r c
  rw [player_move_rawGrid]
  exact h r c

end Nuggets

namespace Nuggets

theorem uac_lettersOwned (st : GameState) (h : lettersOwned st) :
    lettersOwned (server_update_all_clients st) := by
  intro r c hp
  rw [grid_isPlayer_congr (show grid_getchar (server_update_all_clients st).masterGrid r c
    = grid_getchar st.masterGrid r c by rw [uac_masterGrid])] at hp
  obtain ⟨j, hj, hjr, hjc⟩ := h r c hp
  refine ⟨j, ?_, ?_, ?_⟩
  · rw [uac_players, List.length_map]
    exact hj
  · rw [(uac_getD st j hj).1]
    exact hjr
  · rw [(uac_getD st j hj).2]
    exact hjc

theorem pickup_lettersOwned (st : GameState) (i : Nat) (h : lettersOwned st) :
    lettersOwned (pickup_gold st i) := by
  intro r c hp
  rw [grid_isPlayer_congr (show grid_getchar (pickup_gold st i).masterGrid r c
    = grid_getchar st.masterGrid r c by rw [pickup_masterGrid])] at hp
  obtain ⟨j, hj, hjr, hjc⟩ := h r c hp
  refine ⟨j, ?_, ?_, ?_⟩
  · rw [pickup_players, List.length_set]
    exact hj
  · rw [(pickup_getD st i j hj).1]
    exact hjr
  · rw [(pickup_getD st i j hj).2]
    exact hjc

end Nuggets

namespace Nuggets

theorem grid_getchar_update_self_cases (g : Grid) (r c : Int) (ch : Char) :
    grid_getchar (grid_update g r c ch) r c = ch
      ∨ grid_getchar (grid_update g r c ch) r c = '^'
      ∨ grid_getchar (grid_update g r c ch) r c = ' ' := by
  unfold grid_update grid_getchar
  by_cases hb : grid_inBounds g r c
  · rw [if_pos hb, if_pos (show grid_inBounds { g with cells := g.cells.set _ ch } r c from hb)]
    by_cases hidx : (r * g.ncol + c).toNat < g.cells.length
    · left
      show (g.cells.set (r * g.ncol + c).toNat ch).getD (r * g.ncol + c).toNat ' ' = ch
      rw [List.getD_eq_getElem?_getD, List.getElem?_set_self hidx]
      rfl
    · right
      right
      show (g.cells.set (r * g.ncol + c).toNat ch).getD (r * g.ncol + c).toNat ' ' = ' '
      rw [List.getD_eq_getElem?_getD,
        List.getElem?_eq_none (by rw [List.length_set]; omega)]
      rfl
  · rw [if_neg hb, if_neg hb]
    right
    left
    rfl

theorem isPlayer_after_update_raw (g raw : Grid) (pr pc : Int)
    (hraw : grid_isPlayer raw pr pc = false) :
    grid_isPlayer (grid_update g pr pc (grid_getchar raw pr pc)) pr pc = false := by
  rcases grid_getchar_update_self_cases g pr pc (grid_getchar raw pr pc) with hc | hc | hc
  · rw [grid_isPlayer_congr hc]
    exact hraw
  · unfold grid_isPlayer
    rw [hc]
    decide
  · unfold grid_isPlayer
    rw [hc]
    decide

theorem pm_step_lettersOwned (st : GameState) (i : Nat) (nr nc : Int)
    (hi : i < st.players.length) (hrc : rawClean st)
    (h : lettersOwned st) : lettersOwned (pm_step st i nr nc) := by
  have hplayers : (pm_step st i nr nc).players
      = st.players.set i { st.players.getD i default with row := nr, col := nc } := rfl
  have hmaster : (pm_step st i nr nc).masterGrid
      = grid_update (grid_update st.masterGrid (st.players.getD i default).row
          (st.players.getD i default).col
          (grid_getchar st.rawGrid (st.players.getD i default).row
            (st.players.getD i default).col)) nr nc
          (st.players.getD i default).aliasLetter := rfl
  have hlen : (pm_step st i nr nc).players.length = st.players.length := by
    rw [hplayers, List.length_set]
  intro r c hp
  by_cases hnew : r = nr ∧ c = nc
  · refine ⟨i, by rw [hlen]; exact hi, ?_, ?_⟩
    · rw [hplayers, listGetD_set_self _ _ _ _ hi]
      exact hnew.1.symm
    · rw [hplayers, listGetD_set_self _ _ _ _ hi]
      exact hnew.2.symm
  · by_cases hold : r = (st.players.getD i default).row
        ∧ c = (st.players.getD i default).col
    · exfalso
      have hcond : ¬((st.players.getD i default).row = nr
          ∧ (st.players.getD i default).col = nc) :=
        fun hcon => hnew ⟨hold.1.trans hcon.1, hold.2.trans hcon.2⟩
      have hchar : grid_getchar (pm_step st i nr nc).masterGrid r c
          = grid_getchar (grid_update st.masterGrid (st.players.getD i default).row
              (st.players.getD i default).col
              (grid_getchar st.rawGrid (st.players.getD i default).row
                (st.players.getD i default).col))
            (st.players.getD i default).row (st.players.getD i default).col := by
        rw [hmaster, hold.1, hold.2, grid_getchar_update_ne _ _ hcond]
      rw [grid_isPlayer_congr hchar,
        isPlayer_after_update_raw st.masterGrid st.rawGrid _ _
          (hrc (st.players.getD i default).row (st.players.getD i default).col)] at hp
      exact absurd hp (by decide)
    · have hchar : grid_getchar (pm_step st i nr nc).masterGrid r c
          = grid_getchar st.masterGrid r c := by
        rw [hmaster, grid_getchar_update_ne _ _ hnew, grid_getchar_update_ne _ _ hold]
      rw [grid_isPlayer_congr hchar] at hp
      obtain ⟨j, hj, hjr, hjc⟩ := h r c hp
      have hji : j ≠ i := by
        intro hji
        subst hji
        exact hold ⟨hjr.symm, hjc.symm⟩
      refine ⟨j, by rw [hlen]; exact hj, ?_, ?_⟩
      · rw [hplayers, listGetD_set_ne _ _ _ (fun hh => hji hh.symm)]
        exact hjr
      · rw [hplayers, listGetD_set_ne _ _ _ (fun hh => hji hh.symm)]
        exact hjc

end Nuggets

namespace Nuggets

theorem pm_swap_lettersOwned (st : GameState) (i j : Nat) (nr nc : Int)
    (hi : i < st.players.length) (hj : j < st.players.length)
    (hjpos : (st.players.getD j default).row = nr
      ∧ (st.players.getD j default).col = nc)
    (h : lettersOwned st) : lettersOwned (pm_swap st i j nr nc) := by
  unfold pm_swap
  simp only
  apply uac_lettersOwned
  set q := st.players.getD j default with hq
  set p := st.players.getD i default with hp
  set qmod : Player := { q with row := p.row, col := p.col } with hqmod
  set ps1 := st.players.set j qmod with hps1
  set pi1 := ps1.getD i default with hpi1
  set imod : Player := { pi1 with row := nr, col := nc } with himod
  set ps2 := ps1.set i imod with hps2
  set g1 := grid_update st.masterGrid p.row p.col q.aliasLetter with hg1
  set g2 := grid_update g1 nr nc pi1.aliasLetter with hg2
  have hi1 : i < ps1.length := by
    rw [hps1]
    simpa using hi
  have hlen2 : ps2.length = st.players.length := by
    rw [hps2, hps1]
    simp
  intro r c hp2
  rw [show ({ st with players := ps2, masterGrid := g2 } : GameState).masterGrid = g2
    from rfl] at hp2
  rw [show ({ st with players := ps2, masterGrid := g2 } : GameState).players = ps2
    from rfl]
  by_cases hnew : r = nr ∧ c = nc
  · refine ⟨i, by rw [hlen2]; exact hi, ?_, ?_⟩
    · rw [hps2, listGetD_set_self _ _ _ _ hi1]
      exact hnew.1.symm
    · rw [hps2, listGetD_set_self _ _ _ _ hi1]
      exact hnew.2.symm
  · by_cases hold : r = p.row ∧ c = p.col
    · have hji : ¬(j = i) := fun hji =>
        hnew ⟨hold.1.trans (by rw [hp, ← hji, ← hq]; exact hjpos.1),
          hold.2.trans (by rw [hp, ← hji, ← hq]; exact hjpos.2)⟩
      refine ⟨j, by rw [hlen2]; exact hj, ?_, ?_⟩
      · rw [hps2, listGetD_set_ne _ _ _ (fun hh => hji hh.symm), hps1,
          listGetD_set_self _ _ _ _ hj]
        exact hold.1.symm
      · rw [hps2, listGetD_set_ne _ _ _ (fun hh => hji hh.symm), hps1,
          listGetD_set_self _ _ _ _ hj]
        exact hold.2.symm
    · have hchar : grid_getchar g2 r c = grid_getchar st.masterGrid r c := by
        rw [hg2, grid_getchar_update_ne _ _ hnew, hg1, grid_getchar_update_ne _ _ hold]
      rw [grid_isPlayer_congr hchar] at hp2
      obtain ⟨k, hk, hkr, hkc⟩ := h r c hp2
      have hki : k ≠ i := by
        intro hki
        subst hki
        exact hold ⟨by rw [hp]; exact hkr.symm, by rw [hp]; exact hkc.symm⟩
      have hkj : k ≠ j := by
        intro hkj
        subst hkj
        exact hnew ⟨hkr.symm.trans (by rw [← hq]; exact hjpos.1),
          hkc.symm.trans (by rw [← hq]; exact hjpos.2)⟩
      refine ⟨k, by rw [hlen2]; exact hk, ?_, ?_⟩
      · rw [hps2, listGetD_set_ne _ _ _ (fun hh => hki hh.symm), hps1,
          listGetD_set_ne _ _ _ (fun hh => hkj hh.symm)]
        exact hkr
      · rw [hps2, listGetD_set_ne _ _ _ (fun hh => hki hh.symm), hps1,
          listGetD_set_ne _ _ _ (fun hh => hkj hh.symm)]
        exact hkc

end Nuggets

namespace Nuggets

theorem player_move_lettersOwned (st : GameState) (i : Nat) (nr nc : Int)
    (hi : i < st.players.length) (hrc : rawClean st)
    (h : lettersOwned st) : lettersOwned (player_move st i nr nc).1 := by
  unfold player_move
  split
  · split
    · split
      · next j hfind =>
        have hj : j < st.players.length := findIdx?_some_lt hfind
        have hjpos : (st.players.getD j default).row = nr
            ∧ (st.players.getD j default).col = nc := by
          simpa [Bool.and_eq_true, beq_iff_eq] using findIdx?_some_prop hfind
        exact pm_swap_lettersOwned st i j nr nc hi hj hjpos h
      · exact h
    · split
      · exact uac_lettersOwned _ (pickup_lettersOwned _ i
          (pm_step_lettersOwned st i nr nc hi hrc h))
      · exact uac_lettersOwned _ (pm_step_lettersOwned st i nr nc hi hrc h)
  · exact h

theorem player_move_pos (st : GameState) (i : Nat) (nr nc : Int)
    (hi : i < st.players.length) (hlo : lettersOwned st)
    (hr : (player_move st i nr nc).2 = false) :
    ((player_move st i nr nc).1.players.getD i default).row = nr
      ∧ ((player_move st i nr nc).1.players.getD i default).col = nc := by
  by_cases hmv : grid_canMoveTo st.masterGrid nr nc = true
  · by_cases hip : grid_isPlayer st.masterGrid nr nc = true
    · cases hfind : st.players.findIdx? (fun qq => qq.row == nr && qq.col == nc) with
      | some j =>
        have hfst : (player_move st i nr nc).1 = pm_swap st i j nr nc := by
          unfold player_move
          rw [if_pos hmv, if_pos hip, hfind]
        rw [hfst]
        exact pm_swap_getD_self st i j nr nc hi
      | none =>
        exfalso
        obtain ⟨j, hj, hjr, hjc⟩ := hlo nr nc hip
        have hmem : st.players.getD j default ∈ st.players := by
          rw [List.getD_eq_getElem st.players default hj]
          exact List.getElem_mem hj
        have hfalse := List.findIdx?_eq_none_iff.mp hfind _ hmem
        simp [hjr, hjc] at hfalse
        exact hfalse (by simpa using hjr) (by simpa using hjc)
    · by_cases hg : grid_isGold st.masterGrid nr nc = true
      · have hfst : (player_move st i nr nc).1
            = server_update_all_clients (pickup_gold (pm_step st i nr nc) i) := by
          unfold player_move
          rw [if_pos hmv, if_neg (by simp [hip]), if_pos hg]
        rw [hfst]
        have hstep := pm_step_getD_self st i nr nc hi
        have hi1 : i < (pm_step st i nr nc).players.length := by
          rw [(pm_step_sums st i nr nc hi).2.2.2]
          exact hi
        have hpick := pickup_getD (pm_step st i nr nc) i i hi1
        have hi2 : i < (pickup_gold (pm_step st i nr nc) i).players.length := by
          rw [(pickup_sums (pm_step st i nr nc) i hi1).2.2]
          exact hi1
        have huac := uac_getD (pickup_gold (pm_step st i nr nc) i) i hi2
        exact ⟨by rw [huac.1, hpick.1, hstep.1], by rw [huac.2, hpick.2, hstep.2]⟩
      · have hfst : (player_move st i nr nc).1
            = server_update_all_clients (pm_step st i nr nc) := by
          unfold player_move
          rw [if_pos hmv, if_neg (by simp [hip]), if_neg (by simp [hg])]
        rw [hfst]
        have hstep := pm_step_getD_self st i nr nc hi
        have hi1 : i < (pm_step st i nr nc).players.length := by
          rw [(pm_step_sums st i nr nc hi).2.2.2]
          exact hi
        have huac := uac_getD (pm_step st i nr nc) i hi1
        exact ⟨by rw [huac.1, hstep.1], by rw [huac.2, hstep.2]⟩
  · exfalso
    have h2t : (player_move st i nr nc).2 = true := by
      unfold player_move
      rw [if_neg hmv]
    rw [h2t] at hr
    exact absurd hr (by decide)

end Nuggets

namespace Nuggets

theorem run_step_loops_eq (i : Nat) (dr dc : Int) :
    ∀ (fuel : Nat) (st : GameState), i < st.players.length →
      lettersOwned st → rawClean st →
      moveLoop i dr dc fuel st (st.players.getD i default).row
          (st.players.getD i default).col
        = stepLoop i dr dc fuel st := by
  intro fuel
  induction fuel with
  | zero => intro st _ _ _; rfl
  | succ n ih =>
    intro st hi hlo hrc
    simp only [moveLoop, stepLoop]
    by_cases hr : (player_move st i ((st.players.getD i default).row + dr)
        ((st.players.getD i default).col + dc)).2 = true
    · rw [if_pos hr, if_pos hr]
    · rw [if_neg hr, if_neg hr]
      have hrf : (player_move st i ((st.players.getD i default).row + dr)
          ((st.players.getD i default).col + dc)).2 = false := by
        simpa using hr
      have hi' : i < (player_move st i ((st.players.getD i default).row + dr)
          ((st.players.getD i default).col + dc)).1.players.length := by
        rw [(player_move_sums st i _ _ hi).2.2]
        exact hi
      have hpos := player_move_pos st i _ _ hi hlo hrf
      have hIH := ih (player_move st i ((st.players.getD i default).row + dr)
          ((st.players.getD i default).col + dc)).1 hi'
        (player_move_lettersOwned st i _ _ hi hrc hlo)
        (player_move_rawClean st i _ _ hrc)
      rw [hpos.1, hpos.2] at hIH
      exact hIH

end Nuggets

namespace Nuggets

/-- Claim C6: run-mode equivalence.  For every seated player of a state
whose master grid letters are all owned by table entries and whose raw
grid shows no players (both hold in every reachable state, also after
quits: a quit removes a letter and keeps the entry, so letters stay
owned), dispatching one uppercase run key H/L/J/K/Y/U/B/N produces
exactly the state of repeatedly attempting the corresponding single-step
move (re-reading the player's position each step, as the lowercase key
does) until a step targets a non-traversable tile: the whole resulting
states coincide, hence the mover's final resting position and the full
sequence of pickups, swaps and client updates coincide. -/
theorem run_mode_equiv (st : GameState) (i pIP : Nat)
    (hi : i < st.players.length)
    (hlo : lettersOwned st) (hrc : rawClean st) :
    keyDispatch st i (st.players.getD i default).row
          (st.players.getD i default).col pIP 'H'
        = (stepLoop i 0 (-1) (runFuel st) st).1
      ∧ keyDispatch st i (st.players.getD i default).row
          (st.players.getD i default).col pIP 'L'
        = (stepLoop i 0 1 (runFuel st) st).1
      ∧ keyDispatch st i (st.players.getD i default).row
          (st.players.getD i default).col pIP 'J'
        = (stepLoop i 1 0 (runFuel st) st).1
      ∧ keyDispatch st i (st.players.getD i default).row
          (st.players.getD i default).col pIP 'K'
        = (stepLoop i (-1) 0 (runFuel st) st).1
      ∧ keyDispatch st i (st.players.getD i default).row
          (st.players.getD i default).col pIP 'Y'
        = (stepLoop i (-1) (-1) (runFuel st) st).1
      ∧ keyDispatch st i (st.players.getD i default).row
          (st.players.getD i default).col pIP 'U'
        = (stepLoop i (-1) 1 (runFuel st) st).1
      ∧ keyDispatch st i (st.players.getD i default).row
          (st.players.getD i default).col pIP 'B'
        = (stepLoop i 1 (-1) (runFuel st) st).1
      ∧ keyDispatch st i (st.players.getD i default).row
          (st.players.getD i default).col pIP 'N'
        = (stepLoop i 1 1 (runFuel st) st).1 := by
  refine ⟨?_, ?_, ?_, ?_, ?_, ?_, ?_, ?_⟩
  · unfold keyDispatch
    rw [if_neg (by decide : ¬('H' : Char) = 'h'),
      if_pos rfl, run_step_loops_eq i 0 (-1) (runFuel st) st hi hlo hrc]
  · unfold keyDispatch
    rw [if_neg (by decide : ¬('L' : Char) = 'h'),
      if_neg (by decide : ¬('L' : Char) = 'H'),
      if_neg (by decide : ¬('L' : Char) = 'l'),
      if_pos rfl, run_step_loops_eq i 0 1 (runFuel st) st hi hlo hrc]
  · unfold keyDispatch
    rw [if_neg (by decide : ¬('J' : Char) = 'h'),
      if_neg (by decide : ¬('J' : Char) = 'H'),
      if_neg (by decide : ¬('J' : Char) = 'l'),
      if_neg (by decide : ¬('J' : Char) = 'L'),
      if_neg (by decide : ¬('J' : Char) = 'j'),
      if_pos rfl, run_step_loops_eq i 1 0 (runFuel st) st hi hlo hrc]
  · unfold keyDispatch
    rw [if_neg (by decide : ¬('K' : Char) = 'h'),
      if_neg (by decide : ¬('K' : Char) = 'H'),
      if_neg (by decide : ¬('K' : Char) = 'l'),
      if_neg (by decide : ¬('K' : Char) = 'L'),
      if_neg (by decide : ¬('K' : Char) = 'j'),
      if_neg (by decide : ¬('K' : Char) = 'J'),
      if_neg (by decide : ¬('K' : Char) = 'k'),
      if_pos rfl, run_step_loops_eq i (-1) 0 (runFuel st) st hi hlo hrc]
  · unfold keyDispatch
    rw [if_neg (by decide : ¬('Y' : Char) = 'h'),
      if_neg (by decide : ¬('Y' : Char) = 'H'),
      if_neg (by decide : ¬('Y' : Char) = 'l'),
      if_neg (by decide : ¬('Y' : Char) = 'L'),
      if_neg (by decide : ¬('Y' : Char) = 'j'),
      if_neg (by decide : ¬('Y' : Char) = 'J'),
      if_neg (by decide : ¬('Y' : Char) = 'k'),
      if_neg (by decide : ¬('Y' : Char) = 'K'),
      if_neg (by decide : ¬('Y' : Char) = 'y'),
      if_pos rfl, run_step_loops_eq i (-1) (-1) (runFuel st) st hi hlo hrc]
  · unfold keyDispatch
    rw [if_neg (by decide : ¬('U' : Char) = 'h'),
      if_neg (by decide : ¬('U' : Char) = 'H'),
      if_neg (by decide : ¬('U' : Char) = 'l'),
      if_neg (by decide : ¬('U' : Char) = 'L'),
      if_neg (by decide : ¬('U' : Char) = 'j'),
      if_neg (by decide : ¬('U' : Char) = 'J'),
      if_neg (by decide : ¬('U' : Char) = 'k'),
      if_neg (by decide : ¬('U' : Char) = 'K'),
      if_neg (by decide : ¬('U' : Char) = 'y'),
      if_neg (by decide : ¬('U' : Char) = 'Y'),
      if_neg (by decide : ¬('U' : Char) = 'u'),
      if_pos rfl, run_step_loops_eq i (-1) 1 (runFuel st) st hi hlo hrc]
  · unfold keyDispatch
    rw [if_neg (by decide : ¬('B' : Char) = 'h'),
      if_neg (by decide : ¬('B' : Char) = 'H'),
      if_neg (by decide : ¬('B' : Char) = 'l'),
      if_neg (by decide : ¬('B' : Char) = 'L'),
      if_neg (by decide : ¬('B' : Char) = 'j'),
      if_neg (by decide : ¬('B' : Char) = 'J'),
      if_neg (by decide : ¬('B' : Char) = 'k'),
      if_neg (by decide : ¬('B' : Char) = 'K'),
      if_neg (by decide : ¬('B' : Char) = 'y'),
      if_neg (by decide : ¬('B' : Char) = 'Y'),
      if_neg (by decide : ¬('B' : Char) = 'u'),
      if_neg (by decide : ¬('B' : Char) = 'U'),
      if_neg (by decide : ¬('B' : Char) = 'b'),
      if_pos rfl, run_step_loops_eq i 1 (-1) (runFuel st) st hi hlo hrc]
  · unfold keyDispatch
    rw [if_neg (by decide : ¬('N' : Char) = 'h'),
      if_neg (by decide : ¬('N' : Char) = 'H'),
      if_neg (by decide : ¬('N' : Char) = 'l'),
      if_neg (by decide : ¬('N' : Char) = 'L'),
      if_neg (by decide : ¬('N' : Char) = 'j'),
      if_neg (by decide : ¬('N' : Char) = 'J'),
      if_neg (by decide : ¬('N' : Char) = 'k'),
      if_neg (by decide : ¬('N' : Char) = 'K'),
      if_neg (by decide : ¬('N' : Char) = 'y'),
      if_neg (by decide : ¬('N' : Char) = 'Y'),
      if_neg (by decide : ¬('N' : Char) = 'u'),
      if_neg (by decide : ¬('N' : Char) = 'U'),
      if_neg (by decide : ¬('N' : Char) = 'b'),
      if_neg (by decide : ¬('N' : Char) = 'B'),
      if_neg (by decide : ¬('N' : Char) = 'n'),
      if_pos rfl, run_step_loops_eq i 1 1 (runFuel st) st hi hlo hrc]

/-- Witness for C6 at a seated player running right with KEY L. -/
theorem run_mode_equiv_witness :
    0 < stQ.players.length ∧ lettersHaveOwners stQ = true
      ∧ rawHasNoPlayers stQ = true
      ∧ keyDispatch stQ 0 (stQ.players.getD 0 default).row
          (stQ.players.getD 0 default).col 5 'L'
        = (stepLoop 0 0 1 (runFuel stQ) stQ).1 :=
  ⟨by decide, by decide, by decide,
    (run_mode_equiv stQ 0 5 (by decide)
      (lettersOwned_of_bool stQ (by decide))
      (rawClean_of_bool stQ (by decide))).2.1⟩

end Nuggets
